import Mathlib

/-!
Verification of the MLS_Soccer repository's normalization pipeline against its
natural-language specification.

The development shallowly embeds the Python sources:

* `src/data_normalizer.py` — `remove_duplicates`, `dict_lookup`, `unnest`,
  `fixture_table`, `event_table`, `player_performance_table`, `players_table`;
* `src/sportmonk.py` — `paginated_results`, `fixture_statistics_lookups`,
  `fixture_lineup_lookups`, `update_lookup`, `read_lookup`.

JSON values manipulated by the Python code are modelled by the inductive
`JValue`; Python dictionaries become association lists in insertion order, and
fallible dictionary/list accesses (`KeyError`, `TypeError`, `IndexError`)
become `Except PyErr` computations so that the embedding records exactly where
the source would raise.
-/

namespace MLS

/-- JSON-like values as manipulated by the Python code.  Objects are
association lists in insertion order (Python dicts preserve insertion
order and have unique keys). -/
inductive JValue where
  | jnull : JValue
  | jbool : Bool → JValue
  | jint : Int → JValue
  | jstr : String → JValue
  | jarr : List JValue → JValue
  | jobj : List (String × JValue) → JValue
deriving Repr

mutual

/-- Python `==` on the modelled values.  Numeric cross-type equality between
booleans and integers mirrors Python (`True == 1`); objects compare field by
field in insertion order (model objects are canonical dictionaries). -/
def JValue.beq : JValue → JValue → Bool
  | .jnull, .jnull => true
  | .jbool a, .jbool b => a == b
  | .jbool a, .jint m => (if a then (1 : Int) else 0) == m
  | .jint n, .jbool b => n == (if b then (1 : Int) else 0)
  | .jint n, .jint m => n == m
  | .jstr s, .jstr t => s == t
  | .jarr xs, .jarr ys => JValue.beqList xs ys
  | .jobj fs, .jobj gs => JValue.beqFields fs gs
  | _, _ => false

/-- Elementwise Python `==` on lists. -/
def JValue.beqList : List JValue → List JValue → Bool
  | [], [] => true
  | x :: xs, y :: ys => JValue.beq x y && JValue.beqList xs ys
  | _, _ => false

/-- Fieldwise Python `==` on canonical objects. -/
def JValue.beqFields : List (String × JValue) → List (String × JValue) → Bool
  | [], [] => true
  | (k, v) :: fs, (k2, v2) :: gs => k == k2 && JValue.beq v v2 && JValue.beqFields fs gs
  | _, _ => false

end

/-- Errors raised by the embedded Python code. -/
inductive PyErr where
  | keyError : JValue → PyErr
  | typeError : String → PyErr
  | indexError : PyErr
deriving Repr

/-- First-key-wins lookup in an association-list dictionary. -/
def dictGet : List (String × JValue) → String → Option JValue
  | [], _ => none
  | kv :: rest, k => if kv.1 = k then some kv.2 else dictGet rest k

/-- Python `d[k] = v`: overwrite in place if the key exists (keeping its
position), otherwise append the new binding. -/
def dictSet (d : List (String × JValue)) (k : String) (v : JValue) :
    List (String × JValue) :=
  if d.any (fun kv => kv.1 = k) then
    d.map (fun kv => if kv.1 = k then (k, v) else kv)
  else
    d ++ [(k, v)]

/-- Python `d.update(e)`: apply `dictSet` for each binding of `e` in order. -/
def dictUpdate (d e : List (String × JValue)) : List (String × JValue) :=
  e.foldl (fun acc kv => dictSet acc kv.1 kv.2) d

/-- Python `v[k]` on an object: `KeyError` when the key is absent,
`TypeError` when `v` is not a dictionary. -/
def pyGet (v : JValue) (k : String) : Except PyErr JValue :=
  match v with
  | .jobj d =>
    match dictGet d k with
    | some x => .ok x
    | none => .error (.keyError (.jstr k))
  | _ => .error (.typeError k)

/-- Python `v.get(k, dflt)` on an object. -/
def pyGetD (v : JValue) (k : String) (dflt : JValue) : Except PyErr JValue :=
  match v with
  | .jobj d => .ok ((dictGet d k).getD dflt)
  | _ => .error (.typeError k)

/-- Python `len(v)` for the sized values the sources apply it to. -/
def pyLen (v : JValue) : Except PyErr Nat :=
  match v with
  | .jarr l => .ok l.length
  | .jobj d => .ok d.length
  | .jstr s => .ok s.length
  | _ => .error (.typeError "len")

/-- Python `v[k] = x` on an object (the call sites only ever mutate values
that were just read back from an object, so the non-object case is inert). -/
def pySet (v : JValue) (k : String) (x : JValue) : JValue :=
  match v with
  | .jobj d => .jobj (dictSet d k x)
  | _ => v

@[simp] theorem ok_bind {ε α β : Type} (a : α) (f : α → Except ε β) :
    (Except.ok a : Except ε α) >>= f = f a := rfl

@[simp] theorem error_bind {ε α β : Type} (e : ε) (f : α → Except ε β) :
    (Except.error e : Except ε α) >>= f = .error e := rfl

@[simp] theorem except_pure {ε α : Type} (a : α) :
    (pure a : Except ε α) = .ok a := rfl

/-- Sequential effectful map over `Except`, the evaluation order of the
Python `for` loops and comprehensions in the sources. -/
def exceptMap (f : JValue → Except PyErr JValue) :
    List JValue → Except PyErr (List JValue)
  | [] => .ok []
  | x :: xs => do
    let y ← f x
    let ys ← exceptMap f xs
    pure (y :: ys)

theorem exceptMap_ok_of_forall (f : JValue → Except PyErr JValue) :
    ∀ (l : List JValue), (∀ a ∈ l, ∃ b, f a = .ok b) →
      ∃ l', exceptMap f l = .ok l' ∧ l'.length = l.length ∧
        ∀ i (hi : i < l.length) (hi' : i < l'.length), f l[i] = .ok l'[i]
  | [], _ => ⟨[], rfl, rfl, fun i hi => absurd hi (Nat.not_lt_zero i)⟩
  | x :: xs, h => by
    obtain ⟨b, hb⟩ := h x (List.mem_cons_self x xs)
    obtain ⟨l', hl', hlen, hpt⟩ :=
      exceptMap_ok_of_forall f xs (fun a ha => h a (List.mem_cons_of_mem x ha))
    refine ⟨b :: l', ?_, by simp [hlen], ?_⟩
    · simp [exceptMap, hb, hl']
    · intro i hi hi'
      cases i with
      | zero => simpa using hb
      | succ j =>
        simpa using hpt j (by simpa using hi) (by simpa using hi')

theorem exceptMap_error_of_exists (f : JValue → Except PyErr JValue)
    (Q : PyErr → Prop) :
    ∀ (l : List JValue),
      (∀ a ∈ l, (∃ b, f a = .ok b) ∨ ∃ e, f a = .error e ∧ Q e) →
      (∃ a ∈ l, ∀ b, f a ≠ .ok b) →
      ∃ e, exceptMap f l = .error e ∧ Q e
  | [], _, hex => absurd hex (by simp)
  | x :: xs, h, hex => by
    rcases h x (List.mem_cons_self x xs) with ⟨b, hb⟩ | ⟨e, he, hQ⟩
    · have hxs : ∃ a ∈ xs, ∀ b, f a ≠ .ok b := by
        rcases hex with ⟨a, ha, hne⟩
        rcases List.mem_cons.mp ha with rfl | ha'
        · exact absurd hb (hne b)
        · exact ⟨a, ha', hne⟩
      obtain ⟨e, he, hQ⟩ := exceptMap_error_of_exists f Q xs
        (fun a ha => h a (List.mem_cons_of_mem x ha)) hxs
      exact ⟨e, by simp [exceptMap, hb, he], hQ⟩
    · exact ⟨e, by simp [exceptMap, he], hQ⟩

/-! ### Table writer dedupe pass (`data_normalizer.remove_duplicates`) -/

/-- Loop body of `remove_duplicates`: write each line not seen before and
record it in the seen-set. -/
def dedupeAux (seen : List String) : List String → List String
  | [] => []
  | l :: rest =>
    if l ∈ seen then dedupeAux seen rest
    else l :: dedupeAux (l :: seen) rest

/-- Embedding of `data_normalizer.remove_duplicates`: the file content is its
list of lines; the pass rewrites the file keeping each line the first time it
occurs. -/
def remove_duplicates (lines : List String) : List String :=
  dedupeAux [] lines

theorem dedupeAux_nodup_notin :
    ∀ (ls : List String) (seen : List String),
      (dedupeAux seen ls).Nodup ∧ ∀ x ∈ dedupeAux seen ls, x ∉ seen
  | [], _ => ⟨List.nodup_nil, by simp [dedupeAux]⟩
  | l :: rest, seen => by
    by_cases hmem : l ∈ seen
    · have ih := dedupeAux_nodup_notin rest seen
      simpa [dedupeAux, hmem] using ih
    · have ih := dedupeAux_nodup_notin rest (l :: seen)
      refine ⟨?_, ?_⟩
      · simp only [dedupeAux, if_neg hmem, List.nodup_cons]
        exact ⟨fun hl => (ih.2 l hl) (List.mem_cons_self l seen), ih.1⟩
      · intro x hx
        simp only [dedupeAux, if_neg hmem, List.mem_cons] at hx
        rcases hx with rfl | hx
        · exact hmem
        · exact fun hxs => (ih.2 x hx) (List.mem_cons_of_mem l hxs)

theorem dedupeAux_sublist :
    ∀ (ls : List String) (seen : List String), (dedupeAux seen ls).Sublist ls
  | [], _ => List.Sublist.refl []
  | l :: rest, seen => by
    by_cases hmem : l ∈ seen
    · simpa [dedupeAux, hmem] using (dedupeAux_sublist rest seen).cons l
    · simpa [dedupeAux, hmem] using (dedupeAux_sublist rest (l :: seen)).cons₂ l

theorem dedupeAux_mem :
    ∀ (ls : List String) (seen : List String) (x : String),
      x ∈ ls → x ∈ seen ∨ x ∈ dedupeAux seen ls
  | [], _, x, hx => absurd hx (List.not_mem_nil x)
  | l :: rest, seen, x, hx => by
    rcases List.mem_cons.mp hx with rfl | hx'
    · by_cases hmem : x ∈ seen
      · exact Or.inl hmem
      · exact Or.inr (by simp [dedupeAux, hmem])
    · by_cases hmem : l ∈ seen
      · simpa [dedupeAux, hmem] using dedupeAux_mem rest seen x hx'
      · rcases dedupeAux_mem rest (l :: seen) x hx' with hs | hd
        · rcases List.mem_cons.mp hs with rfl | hs'
          · exact Or.inr (by simp [dedupeAux, hmem])
          · exact Or.inl hs'
        · exact Or.inr (by simp [dedupeAux, hmem, hd])

theorem dedupeAux_of_nodup :
    ∀ (ls : List String) (seen : List String),
      ls.Nodup → (∀ x ∈ ls, x ∉ seen) → dedupeAux seen ls = ls
  | [], _, _, _ => rfl
  | l :: rest, seen, hnd, hdisj => by
    have hmem : l ∉ seen := hdisj l (List.mem_cons_self l rest)
    have hrest : dedupeAux (l :: seen) rest = rest := by
      refine dedupeAux_of_nodup rest (l :: seen) (List.Nodup.of_cons hnd) ?_
      intro x hx
      simp only [List.mem_cons, not_or]
      exact ⟨fun h => (List.nodup_cons.mp hnd).1 (h ▸ hx),
        hdisj x (List.mem_cons_of_mem l hx)⟩
    simp [dedupeAux, hmem, hrest]

/-! ### First-match lookup (`data_normalizer.dict_lookup`) -/

/-- Evaluation of `[row[arg[0]] == arg[1] for arg in args]`: every key is
accessed (a missing key raises), and the comparison results are conjoined. -/
def condCheck (row : JValue) : List (String × JValue) → Except PyErr Bool
  | [] => .ok true
  | (k, v) :: rest => do
    let x ← pyGet row k
    let b ← condCheck row rest
    pure (JValue.beq x v && b)

/-- Loop of `dict_lookup`: return the first row satisfying every condition,
or the empty object if the list is exhausted. -/
def lookupRows : List JValue → List (String × JValue) → Except PyErr JValue
  | [], _ => .ok (.jobj [])
  | row :: rest, conds => do
    let b ← condCheck row conds
    if b then .ok row else lookupRows rest conds

/-- Embedding of `data_normalizer.dict_lookup`. -/
def dict_lookup (v : JValue) (conds : List (String × JValue)) :
    Except PyErr JValue :=
  match v with
  | .jarr rows => lookupRows rows conds
  | _ => .error (.typeError "not iterable")

/-- Specification-side predicate: the row satisfies every `(field, value)`
equality condition. -/
def condsHold (row : JValue) (conds : List (String × JValue)) : Bool :=
  conds.all fun c =>
    match pyGet row c.1 with
    | .ok v => JValue.beq v c.2
    | .error _ => false

theorem condCheck_eq_condsHold (row : JValue) :
    ∀ (conds : List (String × JValue)),
      (∀ c ∈ conds, ∃ v, pyGet row c.1 = .ok v) →
      condCheck row conds = .ok (condsHold row conds)
  | [], _ => rfl
  | (k, v) :: rest, h => by
    obtain ⟨x, hx⟩ := h (k, v) (List.mem_cons_self _ _)
    have ih := condCheck_eq_condsHold row rest
      (fun c hc => h c (List.mem_cons_of_mem _ hc))
    simp [condCheck, hx, ih, condsHold, List.all_cons]

/-- Claim C4: for any file content, running the dedupe pass twice yields the
same file content as running it once; the pass keeps only a subsequence of the
original lines (original order), contains no duplicate line, and keeps exactly
the lines that occurred in the file, hence it is idempotent. -/
theorem claim_C4 (lines : List String) :
    remove_duplicates (remove_duplicates lines) = remove_duplicates lines ∧
    (remove_duplicates lines).Sublist lines ∧
    (remove_duplicates lines).Nodup ∧
    ∀ x, x ∈ remove_duplicates lines ↔ x ∈ lines := by
  have hnd : (remove_duplicates lines).Nodup :=
    (dedupeAux_nodup_notin lines []).1
  refine ⟨?_, dedupeAux_sublist lines [], hnd, ?_⟩
  · exact dedupeAux_of_nodup (remove_duplicates lines) [] hnd (by simp)
  · intro x
    constructor
    · exact fun hx => (dedupeAux_sublist lines []).subset hx
    · intro hx
      rcases dedupeAux_mem lines [] x hx with hs | hd
      · exact absurd hs (List.not_mem_nil x)
      · exact hd

/-- Claim C3: for every list of nested entries (each entry carrying every
conditioned field) and every set of `(field, value)` equality conditions,
`dict_lookup` returns the first entry in list order satisfying every
condition, and the empty object if no entry matches. -/
theorem claim_C3 (rows : List JValue) (conds : List (String × JValue))
    (h : ∀ row ∈ rows, ∀ c ∈ conds, ∃ v, pyGet row c.1 = .ok v) :
    dict_lookup (.jarr rows) conds =
      .ok ((rows.find? (fun r => condsHold r conds)).getD (.jobj [])) := by
  induction rows with
  | nil => rfl
  | cons row rest ih =>
    have hrow := condCheck_eq_condsHold row conds
      (h row (List.mem_cons_self row rest))
    have ih' := ih (fun r hr => h r (List.mem_cons_of_mem row hr))
    by_cases hc : condsHold row conds
    · simp [dict_lookup, lookupRows, hrow, hc, List.find?_cons]
    · simp only [Bool.not_eq_true] at hc
      simp only [dict_lookup, lookupRows, hrow, ok_bind, hc, if_false,
        List.find?_cons, Bool.false_eq_true] at ih' ⊢
      exact ih'

/-- A first-half home score entry with one goal, used as concrete data. -/
def demoScoreA : JValue :=
  .jobj [("description", .jstr "1ST_HALF"), ("participant", .jstr "home"),
    ("score", .jobj [("goals", .jint 1)])]

/-- A duplicate first-half home score entry with a different goal count. -/
def demoScoreB : JValue :=
  .jobj [("description", .jstr "1ST_HALF"), ("participant", .jstr "home"),
    ("score", .jobj [("goals", .jint 2)])]

/-- Witness for C3: with two score entries both matching
`description == "1ST_HALF"` and `participant == "home"`, the earlier entry in
list order is selected. -/
theorem claim_C3_witness :
    dict_lookup (.jarr [demoScoreA, demoScoreB])
      [("description", .jstr "1ST_HALF"), ("participant", .jstr "home")] =
      .ok demoScoreA := by
  have h := claim_C3 [demoScoreA, demoScoreB]
    [("description", .jstr "1ST_HALF"), ("participant", .jstr "home")]
    (by
      intro row hrow c hc
      fin_cases hrow <;> fin_cases hc <;> exact ⟨_, rfl⟩)
  exact h.trans (by rfl)

/-! ### Paginated fetcher (`sportmonk.paginated_results`)

One page response is the JSON envelope
`{data, pagination.next_page, rate_limit.remaining, subscription, timezone}`.
The remote endpoint is modelled as a function from requests to pages: `none`
is a GET of the original url, `some p` a GET of the original url with the
page-selector fragment of a reported `next_page` link appended.  `fuel`
bounds the number of follow-up requests; every claim instantiates it large
enough that the bound is never the reason the loop stops. -/

/-- One page envelope returned by the API. -/
structure Page (α β γ : Type) where
  data : List α
  next_page : Option Nat
  rate_limit_remaining : Int
  subscription : β
  timezone : γ
deriving Repr

/-- The loop of `paginated_results`: request, append the response, then stop
when the reported remaining rate-limit quota is at or below 2900, else stop
when `next_page` is null, else follow the link.  Returns the nonempty list of
fetched pages as head and tail. -/
def fetch_all (server : Option Nat → Page α β γ) :
    Nat → Option Nat → Page α β γ × List (Page α β γ)
  | 0, req => (server req, [])
  | fuel + 1, req =>
    let r := server req
    if r.rate_limit_remaining ≤ 2900 then (r, [])
    else
      match r.next_page with
      | none => (r, [])
      | some p =>
        let rest := fetch_all server fuel (some p)
        (r, rest.1 :: rest.2)

/-- Result shape of `paginated_results`: either the raw single-page envelope,
unmodified, or the merged `{data, subscription, rate_limit, timezone}`
dictionary built from several pages. -/
inductive FetchResult (α β γ : Type) where
  | single : Page α β γ → FetchResult α β γ
  | combined : List α → β → Int → γ → FetchResult α β γ
deriving Repr

/-- Embedding of `sportmonk.paginated_results`: if more than one page was
fetched, concatenate every page's `data` array in page order and take the
meta fields from the last page; otherwise return the single raw envelope. -/
def paginated_results (server : Option Nat → Page α β γ) (fuel : Nat) :
    FetchResult α β γ :=
  match fetch_all server fuel none with
  | (r, []) => .single r
  | (r, q :: qs) =>
    .combined ((r :: q :: qs).map Page.data).flatten
      ((q :: qs).getLast (List.cons_ne_nil q qs)).subscription
      ((q :: qs).getLast (List.cons_ne_nil q qs)).rate_limit_remaining
      ((q :: qs).getLast (List.cons_ne_nil q qs)).timezone

/-- The list of records carried by a fetch result. -/
def FetchResult.data : FetchResult α β γ → List α
  | .single p => p.data
  | .combined d _ _ _ => d

/-- A server holding a chain of pages: the original url serves the first
page, and the page-selector fragment `j` serves the `j`-th page. -/
def chainServer (ps : List (Page α β γ)) (d : Page α β γ) :
    Option Nat → Page α β γ
  | none => ps.getD 0 d
  | some j => ps.getD j d

theorem getD_cons_drop (ps : List (Page α β γ)) (d : Page α β γ) (j : Nat)
    (h : j < ps.length) :
    ps.drop j = ps.getD j d :: ps.drop (j + 1) := by
  rw [List.getD_eq_getElem ps d h]
  exact List.drop_eq_getElem_cons h

theorem fetch_all_chain (ps : List (Page α β γ)) (d : Page α β γ) (k : Nat)
    (hchain : ∀ i, i < ps.length →
      (ps.getD i d).next_page = if i + 1 < ps.length then some (i + 1) else none)
    (hk : k < ps.length)
    (hpre : ∀ i, i < k → 2900 < (ps.getD i d).rate_limit_remaining)
    (hstop : (ps.getD k d).rate_limit_remaining ≤ 2900 ∨ k + 1 = ps.length) :
    ∀ fuel j, j ≤ k → k - j ≤ fuel →
      (fetch_all (chainServer ps d) fuel (some j)).1 ::
        (fetch_all (chainServer ps d) fuel (some j)).2 =
      (ps.drop j).take (k + 1 - j) := by
  intro fuel
  induction fuel with
  | zero =>
    intro j hj hfuel
    have hjk : j = k := by omega
    subst hjk
    simp only [fetch_all]
    rw [show j + 1 - j = 1 from by omega, getD_cons_drop ps d j hk]
    rfl
  | succ fuel ih =>
    intro j hj hfuel
    by_cases hjk : j = k
    · subst hjk
      simp only [fetch_all, chainServer]
      rcases hstop with hrl | hlast
      · rw [if_pos hrl, show j + 1 - j = 1 from by omega,
          getD_cons_drop ps d j hk]
        rfl
      · by_cases hrl : (ps.getD j d).rate_limit_remaining ≤ 2900
        · rw [if_pos hrl, show j + 1 - j = 1 from by omega,
            getD_cons_drop ps d j hk]
          rfl
        · have hnext : (ps.getD j d).next_page = none := by
            rw [hchain j hk]
            rw [if_neg (by omega)]
          rw [if_neg hrl, hnext, show j + 1 - j = 1 from by omega,
            getD_cons_drop ps d j hk]
          rfl
    · have hjlt : j < k := by omega
      have hjps : j < ps.length := by omega
      have hrl : ¬ (ps.getD j d).rate_limit_remaining ≤ 2900 := by
        have := hpre j hjlt
        omega
      have hnext : (ps.getD j d).next_page = some (j + 1) := by
        rw [hchain j hjps]
        rw [if_pos (by omega)]
      have ihj := ih (j + 1) (by omega) (by omega)
      rw [show k + 1 - (j + 1) = k - j from by omega] at ihj
      have key : fetch_all (chainServer ps d) (fuel + 1) (some j) =
          (ps.getD j d, (fetch_all (chainServer ps d) fuel (some (j + 1))).1 ::
            (fetch_all (chainServer ps d) fuel (some (j + 1))).2) := by
        simp only [fetch_all, chainServer]
        rw [if_neg hrl, hnext]
      rw [key, getD_cons_drop ps d j hjps,
        show k + 1 - j = (k - j) + 1 from by omega, List.take_succ_cons, ← ihj]

theorem fetch_all_chain_none (ps : List (Page α β γ)) (d : Page α β γ)
    (fuel : Nat) :
    fetch_all (chainServer ps d) fuel none =
      fetch_all (chainServer ps d) fuel (some 0) := by
  cases fuel with
  | zero => rfl
  | succ fuel => rfl

/-- Claim C1: for every chain of pages served in page order, the fetch
operation returns the pages' `data` arrays concatenated strictly in page
order, and it stops after the first page whose reported remaining rate-limit
quota is at or below 2900 (index `k` is the stopping page: either its quota
tripped the guard or it is the last page of the chain), returning exactly the
records accumulated so far. -/
theorem claim_C1 (ps : List (Page α β γ)) (d : Page α β γ) (k fuel : Nat)
    (hchain : ∀ i, i < ps.length →
      (ps.getD i d).next_page = if i + 1 < ps.length then some (i + 1) else none)
    (hk : k < ps.length)
    (hpre : ∀ i, i < k → 2900 < (ps.getD i d).rate_limit_remaining)
    (hstop : (ps.getD k d).rate_limit_remaining ≤ 2900 ∨ k + 1 = ps.length)
    (hfuel : k ≤ fuel) :
    (paginated_results (chainServer ps d) fuel).data =
      ((ps.take (k + 1)).map Page.data).flatten := by
  have hlist := fetch_all_chain ps d k hchain hk hpre hstop fuel 0
    (Nat.zero_le k) (by omega)
  rw [← fetch_all_chain_none] at hlist
  simp only [List.drop_zero, Nat.sub_zero] at hlist
  unfold paginated_results
  split
  · rename_i r heq
    rw [heq] at hlist
    have hlist' : [r] = ps.take (k + 1) := by simpa using hlist
    simp only [FetchResult.data]
    rw [← hlist']
    simp
  · rename_i r q qs heq
    rw [heq] at hlist
    have hlist' : r :: q :: qs = ps.take (k + 1) := by simpa using hlist
    simp only [FetchResult.data]
    rw [← hlist']

/-- Claim C8: if the very first response reports no next page or a tripped
rate limit, only one page is ever fetched and `paginated_results` returns
that page's raw envelope unmodified. -/
theorem claim_C8 (server : Option Nat → Page α β γ) (fuel : Nat)
    (h : (server none).next_page = none ∨
      (server none).rate_limit_remaining ≤ 2900) :
    paginated_results server fuel = .single (server none) := by
  cases fuel with
  | zero => rfl
  | succ fuel =>
    have hfa : fetch_all server (fuel + 1) none = (server none, []) := by
      simp only [fetch_all]
      rcases h with hnp | hrl
      · by_cases hrl : (server none).rate_limit_remaining ≤ 2900
        · rw [if_pos hrl]
        · rw [if_neg hrl, hnp]
      · rw [if_pos hrl]
    unfold paginated_results
    rw [hfa]

/-- A concrete page envelope for the pagination scenarios. -/
def demoPage (recs : List String) (np : Option Nat) (rem : Int) :
    Page String Nat String :=
  ⟨recs, np, rem, 0, "America/Chicago"⟩

/-- Three chained pages `[A,B]`, `[C,D]`, `[E]`, all with ample quota. -/
def demoPages1 : List (Page String Nat String) :=
  [demoPage ["A", "B"] (some 1) 3000,
   demoPage ["C", "D"] (some 2) 3000,
   demoPage ["E"] none 3000]

/-- The same chain, but the second page reports a remaining quota of 2900. -/
def demoPages2 : List (Page String Nat String) :=
  [demoPage ["A", "B"] (some 1) 3000,
   demoPage ["C", "D"] (some 2) 2900,
   demoPage ["E"] none 3000]

/-- Fallback page used as the `getD` default of the chain servers. -/
def demoDefaultPage : Page String Nat String := demoPage [] none 0

/-- Witness for C1: the three-page chain yields `[A,B,C,D,E]` in order, and
with the quota at 2900 after page 2 the fetch stops with `[A,B,C,D]`. -/
theorem claim_C1_witness :
    (paginated_results (chainServer demoPages1 demoDefaultPage) 2).data =
      ["A", "B", "C", "D", "E"] ∧
    (paginated_results (chainServer demoPages2 demoDefaultPage) 2).data =
      ["A", "B", "C", "D"] := by
  constructor
  · have h := claim_C1 demoPages1 demoDefaultPage 2 2
      (by decide) (by decide) (by decide) (by decide) (by decide)
    exact h.trans (by rfl)
  · have h := claim_C1 demoPages2 demoDefaultPage 1 2
      (by decide) (by decide) (by decide) (by decide) (by decide)
    exact h.trans (by rfl)

/-- A lone page whose envelope reports no next page. -/
def demoSinglePage : Page String Nat String := demoPage ["A", "B"] none 3000

/-- Witness for C8: a single-page response is returned as the raw envelope. -/
theorem claim_C8_witness :
    paginated_results (fun _ => demoSinglePage) 5 = .single demoSinglePage :=
  claim_C8 (fun _ => demoSinglePage) 5 (Or.inl rfl)

/-! ### Persisted lookup cache (`sportmonk.update_lookup` / `read_lookup`)

`update_lookup` serializes a Python dict with integer keys through
`json.dump`, which renders each key as its decimal string; `read_lookup`
parses the file with an `object_pairs_hook` that rebuilds the dict applying
`int` to every key.  The JSON text layer is modelled by the list of
`(key string, value)` pairs of the stored object; Python's `str` on integers
and `int` on decimal strings are modelled on the character-list level. -/

/-- The decimal digit character for a digit value (Python's `str` digits). -/
def digitChar : Nat → Char
  | 0 => '0' | 1 => '1' | 2 => '2' | 3 => '3' | 4 => '4'
  | 5 => '5' | 6 => '6' | 7 => '7' | 8 => '8' | _ => '9'

/-- The digit value of a decimal digit character. -/
def charVal (c : Char) : Nat := c.toNat - 48

/-- Decimal rendering of a natural number, most significant digit first. -/
def natToDecimalL (n : Nat) : List Char :=
  if n = 0 then ['0'] else ((Nat.digits 10 n).map digitChar).reverse

/-- Python `str` on an integer, as a character list. -/
def intToDecimalL (i : Int) : List Char :=
  if i < 0 then '-' :: natToDecimalL i.natAbs else natToDecimalL i.toNat

/-- Python `int` on a decimal numeral, as a character list. -/
def decimalToNatL (l : List Char) : Nat :=
  Nat.ofDigits 10 ((l.map charVal).reverse)

/-- Python `int` on an optionally signed decimal numeral. -/
def decimalToIntL : List Char → Int
  | '-' :: rest => -(decimalToNatL rest : Int)
  | l => (decimalToNatL l : Int)

/-- Python `str(i)` for an integer key, as used by `json.dump`. -/
def pyStr (i : Int) : String := ⟨intToDecimalL i⟩

/-- Python `int(s)` as used by the `object_pairs_hook` of `read_lookup`. -/
def pyIntOfStr (s : String) : Int := decimalToIntL s.data

/-- Embedding of `sportmonk.update_lookup`: the stored JSON object carries
the mapping's entries in order, each key rendered as its decimal string. -/
def update_lookup (m : List (Int × String)) : List (String × String) :=
  m.map (fun kv => (pyStr kv.1, kv.2))

/-- Python `d[k] = v` on an integer-keyed dictionary. -/
def intDictSet (d : List (Int × String)) (k : Int) (v : String) :
    List (Int × String) :=
  if d.any (fun kv => kv.1 = k) then
    d.map (fun kv => if kv.1 = k then (k, v) else kv)
  else
    d ++ [(k, v)]

/-- Embedding of `sportmonk.read_lookup`: the `object_pairs_hook` rebuilds a
dictionary from the stored pairs, coercing every key with `int`. -/
def read_lookup (f : List (String × String)) : List (Int × String) :=
  f.foldl (fun acc kv => intDictSet acc (pyIntOfStr kv.1) kv.2) []

theorem charVal_digitChar {d : Nat} (hd : d < 10) : charVal (digitChar d) = d := by
  interval_cases d <;> rfl

theorem digitChar_ne_dash (d : Nat) : digitChar d ≠ '-' := by
  match d with
  | 0 | 1 | 2 | 3 | 4 | 5 | 6 | 7 | 8 => decide
  | n + 9 =>
    show ('9' : Char) ≠ '-'
    decide

theorem decimalToNatL_natToDecimalL (n : Nat) :
    decimalToNatL (natToDecimalL n) = n := by
  by_cases h : n = 0
  · subst h
    rfl
  · unfold natToDecimalL decimalToNatL
    rw [if_neg h]
    rw [List.map_reverse, List.reverse_reverse, List.map_map]
    have hmap : (Nat.digits 10 n).map (charVal ∘ digitChar) = Nat.digits 10 n := by
      have hpt : ∀ d ∈ Nat.digits 10 n, (charVal ∘ digitChar) d = id d :=
        fun d hd => charVal_digitChar (Nat.digits_lt_base (by norm_num) hd)
      rw [List.map_congr_left hpt, List.map_id]
    rw [hmap, Nat.ofDigits_digits]

theorem natToDecimalL_head_ne_dash (n : Nat) :
    ∀ c rest, natToDecimalL n = c :: rest → c ≠ '-' := by
  intro c rest h
  by_cases hn : n = 0
  · subst hn
    simp only [natToDecimalL, if_pos rfl] at h
    cases h
    decide
  · simp only [natToDecimalL, if_neg hn] at h
    have hnil : Nat.digits 10 n ≠ [] := Nat.digits_ne_nil_iff_ne_zero.mpr hn
    have hmem : c ∈ ((Nat.digits 10 n).map digitChar).reverse := by
      rw [h]
      exact List.mem_cons_self c rest
    rw [List.mem_reverse, List.mem_map] at hmem
    obtain ⟨d, _, rfl⟩ := hmem
    exact digitChar_ne_dash d

theorem decimalToIntL_notdash (l : List Char)
    (h : ∀ c rest, l = c :: rest → c ≠ '-') :
    decimalToIntL l = (decimalToNatL l : Int) := by
  cases l with
  | nil => rfl
  | cons c rest =>
    have hc : c ≠ '-' := h c rest rfl
    unfold decimalToIntL
    split
    · rename_i heq
      cases heq
      exact absurd rfl hc
    · rfl

theorem pyIntOfStr_pyStr (i : Int) : pyIntOfStr (pyStr i) = i := by
  unfold pyIntOfStr pyStr intToDecimalL
  by_cases hi : i < 0
  · rw [if_pos hi]
    show decimalToIntL ('-' :: natToDecimalL i.natAbs) = i
    have hred : decimalToIntL ('-' :: natToDecimalL i.natAbs) =
        -(decimalToNatL (natToDecimalL i.natAbs) : Int) := rfl
    rw [hred, decimalToNatL_natToDecimalL]
    omega
  · rw [if_neg hi]
    show decimalToIntL (natToDecimalL i.toNat) = i
    rw [decimalToIntL_notdash _ (natToDecimalL_head_ne_dash i.toNat),
      decimalToNatL_natToDecimalL]
    omega

theorem read_lookup_aux (step : List (Int × String) → String × String →
      List (Int × String)) :
    ∀ (m : List (Int × String)) (acc : List (Int × String)),
      (step = fun acc kv => intDictSet acc (pyIntOfStr kv.1) kv.2) →
      (∀ p ∈ m, ∀ q ∈ acc, (p : Int × String).1 ≠ (q : Int × String).1) →
      m.Pairwise (fun a b => a.1 ≠ b.1) →
      (update_lookup m).foldl step acc = acc ++ m
  | [], acc, _, _, _ => by simp [update_lookup]
  | (k, v) :: rest, acc, hstep, hdisj, hpw => by
    have hnotin : acc.any (fun kv => kv.1 = k) = false := by
      rw [List.any_eq_false]
      intro q hq
      simpa using (hdisj (k, v) (List.mem_cons_self _ _) q hq).symm
    have hset : intDictSet acc k v = acc ++ [(k, v)] := by
      unfold intDictSet
      rw [hnotin]
      simp
    have hpw' := List.pairwise_cons.mp hpw
    have ih := read_lookup_aux step rest (acc ++ [(k, v)]) hstep ?_ hpw'.2
    · calc (update_lookup ((k, v) :: rest)).foldl step acc
          = (update_lookup rest).foldl step (step acc (pyStr k, v)) := by
            simp [update_lookup]
        _ = acc ++ [(k, v)] ++ rest := by
            rw [hstep]
            simp only
            rw [pyIntOfStr_pyStr, hset, ← hstep, ih]
        _ = acc ++ (k, v) :: rest := by simp
    · intro p hp q hq
      rcases List.mem_append.mp hq with hq' | hq'
      · exact hdisj p (List.mem_cons_of_mem _ hp) q hq'
      · have : q = (k, v) := by simpa using hq'
        subst this
        exact (hpw'.1 p hp).symm

/-- Claim C5: writing an integer-keyed mapping to the persisted lookup cache
and reading it back yields the original mapping: the decimal string
rendering of each integer key parses back to the same integer, and values
are untouched. -/
theorem claim_C5 (m : List (Int × String))
    (hm : m.Pairwise (fun a b => a.1 ≠ b.1)) :
    read_lookup (update_lookup m) = m := by
  have h := read_lookup_aux
    (fun acc kv => intDictSet acc (pyIntOfStr kv.1) kv.2) m [] rfl
    (by simp) hm
  simpa [read_lookup] using h

/-- Witness for C5: a concrete code-to-name mapping (with a negative and a
large key to exercise the sign and multi-digit paths) round-trips. -/
theorem claim_C5_witness :
    read_lookup (update_lookup
      [(10, "Shots"), (1605, "Detailed Position"), (-3, "Test"), (0, "Zero")]) =
      [(10, "Shots"), (1605, "Detailed Position"), (-3, "Test"), (0, "Zero")] :=
  claim_C5 _ (by decide)

/-! ### Flattening one nesting level (`data_normalizer.unnest`) -/

/-- Per-row body of `unnest`: collect the bindings of every directly nested
dictionary value into `temp_dict` (later nested keys overwriting earlier
ones), then, when anything was collected, `row.update(temp_dict)`. -/
def unnestRow (row : List (String × JValue)) : List (String × JValue) :=
  let temp := row.foldl
    (fun acc kv =>
      match kv.2 with
      | JValue.jobj nested =>
        nested.foldl (fun a nkv => dictSet a nkv.1 nkv.2) acc
      | _ => acc) []
  if temp.length > 0 then dictUpdate row temp else row

/-- Embedding of `data_normalizer.unnest`: flatten one level of nested
dictionaries in each row of a list of dictionaries (a non-dictionary row has
no `keys` attribute and raises). -/
def unnest (v : JValue) : Except PyErr JValue :=
  match v with
  | .jarr rows => do
    let rows' ← exceptMap
      (fun r =>
        match r with
        | .jobj d => .ok (.jobj (unnestRow d))
        | _ => .error (.typeError "keys")) rows
    pure (.jarr rows')
  | _ => .error (.typeError "not iterable")

/-! ### Fixture and performance rows (`data_normalizer.fixture_table`) -/

/-- Output shape of `fixture_table`: one fixture row of scalars and a list
of performance rows. -/
structure FixtureTables where
  fixture : List JValue
  performance : List (List JValue)
deriving Repr

/-- The home formation column:
`dict_lookup(data['formations'], ('location', 'home'))['formation']` when the
formations list is non-empty, `None` otherwise.  The indexing (rather than
`.get`) raises when no home entry matches. -/
def formation_home (fm : JValue) : Except PyErr JValue := do
  let n ← pyLen fm
  if n > 0 then do
    let r ← dict_lookup fm [("location", .jstr "home")]
    pyGet r "formation"
  else pure .jnull

/-- The away formation column:
`dict_lookup(data['formations'], ('location', 'away')).get('formation')` when
the formations list is non-empty, `None` otherwise. -/
def formation_away (fm : JValue) : Except PyErr JValue := do
  let n ← pyLen fm
  if n > 0 then do
    let r ← dict_lookup fm [("location", .jstr "away")]
    pyGetD r "formation" .jnull
  else pure .jnull

/-- A goals column:
`dict_lookup(scores, ('description', desc), ('participant', side))
   .get('score', {'goals': None})['goals']`. -/
def goals_col (scores : JValue) (desc side : String) : Except PyErr JValue := do
  let r ← dict_lookup scores
    [("description", .jstr desc), ("participant", .jstr side)]
  let s ← pyGetD r "score" (.jobj [("goals", .jnull)])
  pyGet s "goals"

/-- An expected-goals column:
`dict_lookup(xg, ('location', side))['data']['value']` when the xG list is
non-empty, `None` otherwise. -/
def xg_col (xg : JValue) (side : String) : Except PyErr JValue := do
  let n ← pyLen xg
  if n > 0 then do
    let r ← dict_lookup xg [("location", .jstr side)]
    let d ← pyGet r "data"
    pyGet d "value"
  else pure .jnull

/-- Embedding of `data_normalizer.fixture_table`, preserving the source's
evaluation order: scalar fixture columns first, then the in-place `unnest`
of participants, scores and xgfixture, the home/away team-id lookups, the
discarded second-half lookup of line 110, and finally the home then away
performance rows. -/
def fixture_table (data : JValue) : Except PyErr FixtureTables := do
  let vid ← pyGet data "id"
  let vname ← pyGet data "name"
  let vvenue ← pyGet data "venue_id"
  let vstart ← pyGet data "starting_at"
  let vresult ← pyGet data "result_info"
  let parts0 ← pyGet data "participants"
  let parts ← unnest parts0
  let scores0 ← pyGet data "scores"
  let scores ← unnest scores0
  let xg0 ← pyGet data "xgfixture"
  let xg ← unnest xg0
  let hp ← dict_lookup parts [("location", .jstr "home")]
  let home_team_id ← pyGet hp "id"
  let ap ← dict_lookup parts [("location", .jstr "away")]
  let away_team_id ← pyGet ap "id"
  let _ ← dict_lookup scores
    [("description", .jstr "2ND_HALF"), ("participant", .jstr "home")]
  let fm ← pyGet data "formations"
  let fh ← formation_home fm
  let g1 ← goals_col scores "1ST_HALF" "home"
  let g2 ← goals_col scores "2ND_HALF" "home"
  let xh ← xg_col xg "home"
  let fa ← formation_away fm
  let g3 ← goals_col scores "1ST_HALF" "away"
  let g4 ← goals_col scores "2ND_HALF" "away"
  let xa ← xg_col xg "away"
  pure
    { fixture :=
        [vid, vname, vvenue, vstart, vresult, home_team_id, away_team_id],
      performance :=
        [[vid, home_team_id, fh, g1, g2, xh, .jstr "home"],
         [vid, away_team_id, fa, g3, g4, xa, .jstr "away"]] }

/-! ### Event rows (`data_normalizer.event_table`) -/

/-- One event row; `data['periods']` is looked up per event (so it is only
read when at least one event exists), and the period's `sort_order` defaults
to `None` when no period matches. -/
def event_row (data ev : JValue) : Except PyErr (List JValue) := do
  let fid ← pyGet ev "fixture_id"
  let eid ← pyGet ev "id"
  let periods ← pyGet data "periods"
  let perid ← pyGet ev "period_id"
  let per ← dict_lookup periods [("id", perid)]
  let so ← pyGetD per "sort_order" .jnull
  let minute ← pyGet ev "minute"
  let extra ← pyGet ev "extra_minute"
  let pid ← pyGet ev "player_id"
  let pname ← pyGet ev "player_name"
  let partid ← pyGet ev "participant_id"
  let rpid ← pyGet ev "related_player_id"
  let rpname ← pyGet ev "related_player_name"
  let ty ← pyGet ev "type"
  let sub ← pyGet ev "subtype"
  let info ← pyGet ev "info"
  let injured ← pyGet ev "injured"
  pure [fid, eid, so, minute, extra, pid, pname, partid, rpid, rpname,
    ty, sub, info, injured]

/-- Sequential effectful map producing rows. -/
def exceptMapRows (f : JValue → Except PyErr (List JValue)) :
    List JValue → Except PyErr (List (List JValue))
  | [] => .ok []
  | x :: xs => do
    let y ← f x
    let ys ← exceptMapRows f xs
    pure (y :: ys)

/-- Embedding of `data_normalizer.event_table`: one row per event. -/
def event_table (data : JValue) : Except PyErr (List (List JValue)) := do
  let evs ← pyGet data "events"
  match evs with
  | .jarr es => exceptMapRows (event_row data) es
  | _ => .error (.typeError "not iterable")

/-! ### Player-performance rows (`data_normalizer.player_performance_table`) -/

/-- One detail row
`[deet['player_id'], deet['fixture_id'], deet['team_id'], deet['type'],
deet['data']['value']]`. -/
def pp_row (deet : JValue) : Except PyErr (List JValue) := do
  let pid ← pyGet deet "player_id"
  let fid ← pyGet deet "fixture_id"
  let tid ← pyGet deet "team_id"
  let ty ← pyGet deet "type"
  let dat ← pyGet deet "data"
  let dv ← pyGet dat "value"
  pure [pid, fid, tid, ty, dv]

/-- Sequential effectful map producing row blocks. -/
def exceptMapRowss (f : JValue → Except PyErr (List (List JValue))) :
    List JValue → Except PyErr (List (List (List JValue)))
  | [] => .ok []
  | x :: xs => do
    let y ← f x
    let ys ← exceptMapRowss f xs
    pure (y :: ys)

/-- The rows contributed by one lineup entry: one `pp_row` per entry of its
`details` list. -/
def lineup_rows (p : JValue) : Except PyErr (List (List JValue)) := do
  let ds ← pyGet p "details"
  match ds with
  | .jarr l => exceptMapRows pp_row l
  | _ => .error (.typeError "not iterable")

/-- Embedding of `data_normalizer.player_performance_table`: one row per
detail entry of each lineup entry, in nested iteration order. -/
def player_performance_table (data : JValue) :
    Except PyErr (List (List JValue)) := do
  let lineups ← pyGet data "lineups"
  match lineups with
  | .jarr ps => do
    let rowss ← exceptMapRowss lineup_rows ps
    pure rowss.flatten
  | _ => .error (.typeError "not iterable")

/-! ### Player roster rows (`data_normalizer.players_table`) -/

/-- First-match lookup in an integer-keyed lookup store. -/
def storeFind (store : List (Int × String)) (n : Int) : Option String :=
  (store.find? (fun kv => kv.1 = n)).map (fun kv => kv.2)

/-- Python `store[v]` on an integer-keyed store indexed with a record value:
booleans hash like their integer value, a missing (or unhashable-free
non-integer) key raises `KeyError`. -/
def storeGet (store : List (Int × String)) (v : JValue) :
    Except PyErr String :=
  match v with
  | .jint n =>
    match storeFind store n with
    | some s => .ok s
    | none => .error (.keyError (.jint n))
  | .jbool b =>
    match storeFind store (if b then 1 else 0) with
    | some s => .ok s
    | none => .error (.keyError (.jbool b))
  | .jnull => .error (.keyError .jnull)
  | .jstr s => .error (.keyError (.jstr s))
  | _ => .error (.typeError "unhashable")

/-- Python `store.get(v)` on an integer-keyed store: `None` on a missing
hashable key, `TypeError` on an unhashable one. -/
def storeGetD (store : List (Int × String)) (v : JValue) :
    Except PyErr JValue :=
  match v with
  | .jint n =>
    match storeFind store n with
    | some s => .ok (.jstr s)
    | none => .ok .jnull
  | .jbool b =>
    match storeFind store (if b then 1 else 0) with
    | some s => .ok (.jstr s)
    | none => .ok .jnull
  | .jnull => .ok .jnull
  | .jstr _ => .ok .jnull
  | _ => .error (.typeError "unhashable")

/-- One roster row of `players_table` (twelve columns), in the source's
evaluation order. -/
def player_row (cstore tstore : List (Int × String)) (p : JValue) :
    Except PyErr (List JValue) := do
  let lid ← pyGet p "id"
  let pid ← pyGet p "player_id"
  let tid ← pyGet p "team_id"
  let pp ← pyGet p "player"
  let nm ← pyGet pp "name"
  let natid ← pyGet pp "nationality_id"
  let nat ← storeGetD cstore natid
  let posid ← pyGet p "position_id"
  let pos ← storeGetD tstore posid
  let dposid ← pyGet p "detailed_position_id"
  let dpos ← storeGetD tstore dposid
  let jersey ← pyGet p "jersey_number"
  let h ← pyGet pp "height"
  let w ← pyGet pp "weight"
  let dob ← pyGet pp "date_of_birth"
  let img ← pyGet pp "image_path"
  pure [lid, pid, tid, nm, nat, pos, dpos, jersey, h, w, dob, img]

/-- Python `v[i]` on a list value. -/
def pyIndex (v : JValue) (i : Nat) : Except PyErr JValue :=
  match v with
  | .jarr l =>
    match l[i]? with
    | some x => .ok x
    | none => .error .indexError
  | _ => .error (.typeError "not subscriptable")

/-- Python `x + y` on two list values. -/
def pyConcatLists (x y : JValue) : Except PyErr (List JValue) :=
  match x, y with
  | .jarr a, .jarr b => .ok (a ++ b)
  | _, _ => .error (.typeError "can only concatenate list")

/-- Embedding of `data_normalizer.players_table`: the first two participant
entries' `players` lists are concatenated (home roster then away roster) and
one row is emitted per player, in the source's evaluation order. -/
def players_table (cstore tstore : List (Int × String)) (data : JValue) :
    Except PyErr (List (List JValue)) := do
  let parts1 ← pyGet data "participants"
  let p0 ← pyIndex parts1 0
  let pl0 ← pyGet p0 "players"
  let parts2 ← pyGet data "participants"
  let p1 ← pyIndex parts2 1
  let pl1 ← pyGet p1 "players"
  let pls ← pyConcatLists pl0 pl1
  exceptMapRows (player_row cstore tstore) pls

/-- Evaluation of `fixture_table` on a record whose sub-expressions all
succeed: the result is one fixture row and the home-then-away performance
rows assembled from the sub-expression values. -/
theorem fixture_table_eval (data pv parts sv scores xv xg hp ap fm r2 : JValue)
    (vid vname vvenue vstart vresult hid aid fh fa g1 g2 g3 g4 xh xa : JValue)
    (h1 : pyGet data "id" = .ok vid)
    (h2 : pyGet data "name" = .ok vname)
    (h3 : pyGet data "venue_id" = .ok vvenue)
    (h4 : pyGet data "starting_at" = .ok vstart)
    (h5 : pyGet data "result_info" = .ok vresult)
    (hpv : pyGet data "participants" = .ok pv)
    (hpu : unnest pv = .ok parts)
    (hsv : pyGet data "scores" = .ok sv)
    (hsu : unnest sv = .ok scores)
    (hxv : pyGet data "xgfixture" = .ok xv)
    (hxu : unnest xv = .ok xg)
    (hhp : dict_lookup parts [("location", .jstr "home")] = .ok hp)
    (hhid : pyGet hp "id" = .ok hid)
    (hap : dict_lookup parts [("location", .jstr "away")] = .ok ap)
    (haid : pyGet ap "id" = .ok aid)
    (hd2 : dict_lookup scores
      [("description", .jstr "2ND_HALF"), ("participant", .jstr "home")] =
        .ok r2)
    (hfm : pyGet data "formations" = .ok fm)
    (hfh : formation_home fm = .ok fh)
    (hfa : formation_away fm = .ok fa)
    (hg1 : goals_col scores "1ST_HALF" "home" = .ok g1)
    (hg2 : goals_col scores "2ND_HALF" "home" = .ok g2)
    (hg3 : goals_col scores "1ST_HALF" "away" = .ok g3)
    (hg4 : goals_col scores "2ND_HALF" "away" = .ok g4)
    (hxh : xg_col xg "home" = .ok xh)
    (hxa : xg_col xg "away" = .ok xa) :
    fixture_table data = .ok
      { fixture := [vid, vname, vvenue, vstart, vresult, hid, aid],
        performance := [[vid, hid, fh, g1, g2, xh, .jstr "home"],
                        [vid, aid, fa, g3, g4, xa, .jstr "away"]] } := by
  simp only [fixture_table, h1, h2, h3, h4, h5, hpv, hpu, hsv, hsu, hxv,
    hxu, hhp, hhid, hap, haid, hd2, hfm, hfh, hg1, hg2, hxh, hfa, hg3, hg4,
    hxa, ok_bind, except_pure]

/-- From a successful goals column, the underlying first-match lookup
succeeded. -/
theorem goals_col_lookup_ok (scores : JValue) (desc side : String) (g : JValue)
    (hg : goals_col scores desc side = .ok g) :
    ∃ r, dict_lookup scores
      [("description", .jstr desc), ("participant", .jstr side)] = .ok r := by
  unfold goals_col at hg
  cases hd : dict_lookup scores
      [("description", .jstr desc), ("participant", .jstr side)] with
  | ok r => exact ⟨r, rfl⟩
  | error e =>
    rw [hd] at hg
    simp at hg

/-- Claim C2: for every fixture record containing a home and an away
participant (and whose optional column expressions evaluate without error),
`fixture_table` returns exactly one fixture row and exactly two performance
rows, home side then away side; moreover an empty `formations` list makes
the formation column of both performance rows null, and a first-match score
lookup coming back empty makes the corresponding goals column null. -/
theorem claim_C2 (data pv parts sv scores xv xg hp ap fm : JValue)
    (vid vname vvenue vstart vresult hid aid fh fa g1 g2 g3 g4 xh xa : JValue)
    (h1 : pyGet data "id" = .ok vid)
    (h2 : pyGet data "name" = .ok vname)
    (h3 : pyGet data "venue_id" = .ok vvenue)
    (h4 : pyGet data "starting_at" = .ok vstart)
    (h5 : pyGet data "result_info" = .ok vresult)
    (hpv : pyGet data "participants" = .ok pv)
    (hpu : unnest pv = .ok parts)
    (hsv : pyGet data "scores" = .ok sv)
    (hsu : unnest sv = .ok scores)
    (hxv : pyGet data "xgfixture" = .ok xv)
    (hxu : unnest xv = .ok xg)
    (hhp : dict_lookup parts [("location", .jstr "home")] = .ok hp)
    (hhid : pyGet hp "id" = .ok hid)
    (hap : dict_lookup parts [("location", .jstr "away")] = .ok ap)
    (haid : pyGet ap "id" = .ok aid)
    (hfm : pyGet data "formations" = .ok fm)
    (hfh : formation_home fm = .ok fh)
    (hfa : formation_away fm = .ok fa)
    (hg1 : goals_col scores "1ST_HALF" "home" = .ok g1)
    (hg2 : goals_col scores "2ND_HALF" "home" = .ok g2)
    (hg3 : goals_col scores "1ST_HALF" "away" = .ok g3)
    (hg4 : goals_col scores "2ND_HALF" "away" = .ok g4)
    (hxh : xg_col xg "home" = .ok xh)
    (hxa : xg_col xg "away" = .ok xa) :
    fixture_table data = .ok
      { fixture := [vid, vname, vvenue, vstart, vresult, hid, aid],
        performance := [[vid, hid, fh, g1, g2, xh, .jstr "home"],
                        [vid, aid, fa, g3, g4, xa, .jstr "away"]] } ∧
    (fm = .jarr [] → fh = .jnull ∧ fa = .jnull) ∧
    (dict_lookup scores [("description", .jstr "1ST_HALF"),
      ("participant", .jstr "home")] = .ok (.jobj []) → g1 = .jnull) ∧
    (dict_lookup scores [("description", .jstr "2ND_HALF"),
      ("participant", .jstr "home")] = .ok (.jobj []) → g2 = .jnull) ∧
    (dict_lookup scores [("description", .jstr "1ST_HALF"),
      ("participant", .jstr "away")] = .ok (.jobj []) → g3 = .jnull) ∧
    (dict_lookup scores [("description", .jstr "2ND_HALF"),
      ("participant", .jstr "away")] = .ok (.jobj []) → g4 = .jnull) := by
  obtain ⟨r2, hd2⟩ := goals_col_lookup_ok scores "2ND_HALF" "home" g2 hg2
  refine ⟨?_, ?_, ?_, ?_, ?_, ?_⟩
  · exact fixture_table_eval data pv parts sv scores xv xg hp ap fm r2
      vid vname vvenue vstart vresult hid aid fh fa g1 g2 g3 g4 xh xa
      h1 h2 h3 h4 h5 hpv hpu hsv hsu hxv hxu hhp hhid hap haid hd2 hfm hfh
      hfa hg1 hg2 hg3 hg4 hxh hxa
  · intro he
    rw [he] at hfh hfa
    exact ⟨(Except.ok.inj hfh).symm, (Except.ok.inj hfa).symm⟩
  · intro hlk
    have h := hg1
    unfold goals_col at h
    rw [hlk] at h
    exact (Except.ok.inj h).symm
  · intro hlk
    have h := hg2
    unfold goals_col at h
    rw [hlk] at h
    exact (Except.ok.inj h).symm
  · intro hlk
    have h := hg3
    unfold goals_col at h
    rw [hlk] at h
    exact (Except.ok.inj h).symm
  · intro hlk
    have h := hg4
    unfold goals_col at h
    rw [hlk] at h
    exact (Except.ok.inj h).symm

/-- A concrete fixture record: home and away participants with nested
`meta.location` (hoisted by `unnest`), a single first-half home score entry,
and empty `formations` and `xgfixture` lists. -/
def demoFixture : JValue :=
  .jobj [("id", .jint 7), ("name", .jstr "Home FC vs Away FC"),
    ("venue_id", .jint 3), ("starting_at", .jstr "2024-03-01 00:00:00"),
    ("result_info", .jnull),
    ("participants", .jarr [
      .jobj [("id", .jint 101), ("meta", .jobj [("location", .jstr "home")])],
      .jobj [("id", .jint 102), ("meta", .jobj [("location", .jstr "away")])]]),
    ("scores", .jarr [
      .jobj [("description", .jstr "1ST_HALF"),
        ("score", .jobj [("goals", .jint 2), ("participant", .jstr "home")])]]),
    ("xgfixture", .jarr []),
    ("formations", .jarr [])]

/-- Witness for C2: on the concrete record, `fixture_table` yields one
fixture row and two performance rows with null formation, xG and
second-half-goal columns. -/
theorem claim_C2_witness :
    fixture_table demoFixture = .ok
      { fixture := [.jint 7, .jstr "Home FC vs Away FC", .jint 3,
          .jstr "2024-03-01 00:00:00", .jnull, .jint 101, .jint 102],
        performance :=
          [[.jint 7, .jint 101, .jnull, .jint 2, .jnull, .jnull, .jstr "home"],
           [.jint 7, .jint 102, .jnull, .jnull, .jnull, .jnull, .jstr "away"]] } :=
  (claim_C2 demoFixture _ _ _ _ _ _ _ _ _ _ _ _ _ _ _ _ _ _ _ _ _ _ _ _
    rfl rfl rfl rfl rfl rfl rfl rfl rfl rfl rfl rfl rfl rfl rfl rfl rfl rfl
    rfl rfl rfl rfl rfl rfl).1

/-- Claim C10: with a non-empty formations list, the two sides are handled
asymmetrically: when no entry has location `away`, the away performance
row's formation column is null and both rows are still produced, but when no
entry has location `home`, `fixture_table` fails with the missing-field
`KeyError('formation')` instead of yielding null. -/
theorem claim_C10 (data pv parts sv scores xv xg hp ap : JValue)
    (fl : List JValue)
    (vid vname vvenue vstart vresult hid aid g1 g2 g3 g4 xh xa : JValue)
    (h1 : pyGet data "id" = .ok vid)
    (h2 : pyGet data "name" = .ok vname)
    (h3 : pyGet data "venue_id" = .ok vvenue)
    (h4 : pyGet data "starting_at" = .ok vstart)
    (h5 : pyGet data "result_info" = .ok vresult)
    (hpv : pyGet data "participants" = .ok pv)
    (hpu : unnest pv = .ok parts)
    (hsv : pyGet data "scores" = .ok sv)
    (hsu : unnest sv = .ok scores)
    (hxv : pyGet data "xgfixture" = .ok xv)
    (hxu : unnest xv = .ok xg)
    (hhp : dict_lookup parts [("location", .jstr "home")] = .ok hp)
    (hhid : pyGet hp "id" = .ok hid)
    (hap : dict_lookup parts [("location", .jstr "away")] = .ok ap)
    (haid : pyGet ap "id" = .ok aid)
    (hg1 : goals_col scores "1ST_HALF" "home" = .ok g1)
    (hg2 : goals_col scores "2ND_HALF" "home" = .ok g2)
    (hg3 : goals_col scores "1ST_HALF" "away" = .ok g3)
    (hg4 : goals_col scores "2ND_HALF" "away" = .ok g4)
    (hxh : xg_col xg "home" = .ok xh)
    (hxa : xg_col xg "away" = .ok xa)
    (hfm : pyGet data "formations" = .ok (.jarr fl))
    (hne : fl ≠ []) :
    (∀ f, dict_lookup (.jarr fl) [("location", .jstr "away")] = .ok (.jobj []) →
      formation_home (.jarr fl) = .ok f →
      fixture_table data = .ok
        { fixture := [vid, vname, vvenue, vstart, vresult, hid, aid],
          performance := [[vid, hid, f, g1, g2, xh, .jstr "home"],
                          [vid, aid, .jnull, g3, g4, xa, .jstr "away"]] }) ∧
    (dict_lookup (.jarr fl) [("location", .jstr "home")] = .ok (.jobj []) →
      fixture_table data = .error (.keyError (.jstr "formation"))) := by
  have hpos : 0 < fl.length := List.length_pos.mpr hne
  obtain ⟨r2, hd2⟩ := goals_col_lookup_ok scores "2ND_HALF" "home" g2 hg2
  constructor
  · intro f haway hf
    have hfa : formation_away (.jarr fl) = .ok .jnull := by
      unfold formation_away
      simp only [pyLen, ok_bind]
      rw [if_pos hpos]
      simp [haway, pyGetD, dictGet]
    exact fixture_table_eval data pv parts sv scores xv xg hp ap (.jarr fl) r2
      vid vname vvenue vstart vresult hid aid f .jnull g1 g2 g3 g4 xh xa
      h1 h2 h3 h4 h5 hpv hpu hsv hsu hxv hxu hhp hhid hap haid hd2 hfm hf hfa
      hg1 hg2 hg3 hg4 hxh hxa
  · intro hhome
    have hfh : formation_home (.jarr fl) =
        .error (.keyError (.jstr "formation")) := by
      unfold formation_home
      simp only [pyLen, ok_bind]
      rw [if_pos hpos]
      simp [hhome, pyGet, dictGet]
    simp only [fixture_table, h1, h2, h3, h4, h5, hpv, hpu, hsv, hsu, hxv,
      hxu, hhp, hhid, hap, haid, hd2, hfm, hfh, ok_bind, error_bind]

/-- The concrete fixture record with a home-side-only formations list. -/
def demoFixtureHomeFormation : JValue :=
  .jobj [("id", .jint 7), ("name", .jstr "Home FC vs Away FC"),
    ("venue_id", .jint 3), ("starting_at", .jstr "2024-03-01 00:00:00"),
    ("result_info", .jnull),
    ("participants", .jarr [
      .jobj [("id", .jint 101), ("meta", .jobj [("location", .jstr "home")])],
      .jobj [("id", .jint 102), ("meta", .jobj [("location", .jstr "away")])]]),
    ("scores", .jarr [
      .jobj [("description", .jstr "1ST_HALF"),
        ("score", .jobj [("goals", .jint 2), ("participant", .jstr "home")])]]),
    ("xgfixture", .jarr []),
    ("formations", .jarr [
      .jobj [("location", .jstr "home"), ("formation", .jstr "4-4-2")]])]

/-- The concrete fixture record with an away-side-only formations list. -/
def demoFixtureAwayFormation : JValue :=
  .jobj [("id", .jint 7), ("name", .jstr "Home FC vs Away FC"),
    ("venue_id", .jint 3), ("starting_at", .jstr "2024-03-01 00:00:00"),
    ("result_info", .jnull),
    ("participants", .jarr [
      .jobj [("id", .jint 101), ("meta", .jobj [("location", .jstr "home")])],
      .jobj [("id", .jint 102), ("meta", .jobj [("location", .jstr "away")])]]),
    ("scores", .jarr [
      .jobj [("description", .jstr "1ST_HALF"),
        ("score", .jobj [("goals", .jint 2), ("participant", .jstr "home")])]]),
    ("xgfixture", .jarr []),
    ("formations", .jarr [
      .jobj [("location", .jstr "away"), ("formation", .jstr "4-3-3")]])]

/-- Witness for C10: a missing away formation leaves the away row's column
null while both rows are produced; a missing home formation aborts
`fixture_table` with `KeyError('formation')`. -/
theorem claim_C10_witness :
    fixture_table demoFixtureHomeFormation = .ok
      { fixture := [.jint 7, .jstr "Home FC vs Away FC", .jint 3,
          .jstr "2024-03-01 00:00:00", .jnull, .jint 101, .jint 102],
        performance :=
          [[.jint 7, .jint 101, .jstr "4-4-2", .jint 2, .jnull, .jnull,
            .jstr "home"],
           [.jint 7, .jint 102, .jnull, .jnull, .jnull, .jnull,
            .jstr "away"]] } ∧
    fixture_table demoFixtureAwayFormation =
      .error (.keyError (.jstr "formation")) := by
  constructor
  · exact (claim_C10 demoFixtureHomeFormation _ _ _ _ _ _ _ _ _
      _ _ _ _ _ _ _ _ _ _ _ _ _
      rfl rfl rfl rfl rfl rfl rfl rfl rfl rfl rfl rfl rfl rfl rfl
      rfl rfl rfl rfl rfl rfl rfl
      (List.cons_ne_nil _ _)).1 (.jstr "4-4-2") rfl rfl
  · exact (claim_C10 demoFixtureAwayFormation _ _ _ _ _ _ _ _ _
      _ _ _ _ _ _ _ _ _ _ _ _ _
      rfl rfl rfl rfl rfl rfl rfl rfl rfl rfl rfl rfl rfl rfl rfl
      rfl rfl rfl rfl rfl rfl rfl
      (List.cons_ne_nil _ _)).2 rfl

theorem bind_ok_iff {ε α β : Type} (x : Except ε α) (f : α → Except ε β)
    (b : β) : (x >>= f) = .ok b ↔ ∃ a, x = .ok a ∧ f a = .ok b := by
  cases x with
  | ok a => simp
  | error e => simp

theorem exceptMapRows_forall (f : JValue → Except PyErr (List JValue))
    (P : List JValue → Prop) (hf : ∀ x y, f x = .ok y → P y) :
    ∀ (l : List JValue) (rows : List (List JValue)),
      exceptMapRows f l = .ok rows → ∀ r ∈ rows, P r
  | [], rows, h => by
    have h' : ([] : List (List JValue)) = rows := Except.ok.inj h
    subst h'
    simp
  | x :: xs, rows, h => by
    simp only [exceptMapRows, bind_ok_iff, except_pure, Except.ok.injEq] at h
    obtain ⟨y, hy, ys, hys, hrows⟩ := h
    subst hrows
    intro r hr
    rcases List.mem_cons.mp hr with rfl | hr'
    · exact hf x r hy
    · exact exceptMapRows_forall f P hf xs ys hys r hr'

theorem exceptMapRowss_forall (f : JValue → Except PyErr (List (List JValue)))
    (P : List (List JValue) → Prop) (hf : ∀ x y, f x = .ok y → P y) :
    ∀ (l : List JValue) (blocks : List (List (List JValue))),
      exceptMapRowss f l = .ok blocks → ∀ b ∈ blocks, P b
  | [], blocks, h => by
    have h' : ([] : List (List (List JValue))) = blocks := Except.ok.inj h
    subst h'
    simp
  | x :: xs, blocks, h => by
    simp only [exceptMapRowss, bind_ok_iff, except_pure, Except.ok.injEq] at h
    obtain ⟨y, hy, ys, hys, hblocks⟩ := h
    subst hblocks
    intro b hb
    rcases List.mem_cons.mp hb with rfl | hb'
    · exact hf x b hy
    · exact exceptMapRowss_forall f P hf xs ys hys b hb'

theorem event_row_length (data ev : JValue) (r : List JValue)
    (h : event_row data ev = .ok r) : r.length = 14 := by
  unfold event_row at h
  simp only [bind_ok_iff, except_pure, Except.ok.injEq] at h
  obtain ⟨a1, -, a2, -, a3, -, a4, -, a5, -, a6, -, a7, -, a8, -, a9, -,
    a10, -, a11, -, a12, -, a13, -, a14, -, a15, -, a16, -, a17, -, hr⟩ := h
  subst hr
  rfl

theorem pp_row_length (deet : JValue) (r : List JValue)
    (h : pp_row deet = .ok r) : r.length = 5 := by
  unfold pp_row at h
  simp only [bind_ok_iff, except_pure, Except.ok.injEq] at h
  obtain ⟨a1, -, a2, -, a3, -, a4, -, a5, -, a6, -, hr⟩ := h
  subst hr
  rfl

theorem player_row_length (cstore tstore : List (Int × String)) (p : JValue)
    (r : List JValue) (h : player_row cstore tstore p = .ok r) :
    r.length = 12 := by
  unfold player_row at h
  simp only [bind_ok_iff, except_pure, Except.ok.injEq] at h
  obtain ⟨a1, -, a2, -, a3, -, a4, -, a5, -, a6, -, a7, -, a8, -, a9, -,
    a10, -, a11, -, a12, -, a13, -, a14, -, a15, -, a16, -, hr⟩ := h
  subst hr
  rfl

theorem lineup_rows_length (p : JValue) (block : List (List JValue))
    (h : lineup_rows p = .ok block) : ∀ r ∈ block, r.length = 5 := by
  unfold lineup_rows at h
  simp only [bind_ok_iff] at h
  obtain ⟨ds, -, hm⟩ := h
  cases ds with
  | jarr l => exact exceptMapRows_forall pp_row _ pp_row_length l block hm
  | jnull => simp at hm
  | jbool b => simp at hm
  | jint n => simp at hm
  | jstr s => simp at hm
  | jobj d => simp at hm

theorem fixture_table_arity (data : JValue) (t : FixtureTables)
    (h : fixture_table data = .ok t) :
    t.fixture.length = 7 ∧ ∀ r ∈ t.performance, r.length = 7 := by
  unfold fixture_table at h
  simp only [bind_ok_iff, except_pure, Except.ok.injEq] at h
  obtain ⟨a1, -, a2, -, a3, -, a4, -, a5, -, a6, -, a7, -, a8, -, a9, -,
    a10, -, a11, -, a12, -, a13, -, a14, -, a15, -, a16, -, a17, -, a18, -,
    a19, -, a20, -, a21, -, a22, -, a23, -, a24, -, a25, -, ht⟩ := h
  subst ht
  refine ⟨rfl, ?_⟩
  intro r hr
  rcases List.mem_cons.mp hr with rfl | hr'
  · rfl
  · rcases List.mem_cons.mp hr' with rfl | hr''
    · rfl
    · exact absurd hr'' (List.not_mem_nil r)

/-- Claim C9 (amended): every row emitted by the table builders has the
fixed column arity of its table kind — fixture rows 7 columns, performance
rows 7, events rows 14, player_performance rows 5, and players rows 12
(the source emits twelve columns, not the claimed eleven). -/
theorem claim_C9_amended :
    (∀ data t, fixture_table data = .ok t →
      t.fixture.length = 7 ∧ ∀ r ∈ t.performance, r.length = 7) ∧
    (∀ data rows, event_table data = .ok rows → ∀ r ∈ rows, r.length = 14) ∧
    (∀ data rows, player_performance_table data = .ok rows →
      ∀ r ∈ rows, r.length = 5) ∧
    (∀ cstore tstore data rows, players_table cstore tstore data = .ok rows →
      ∀ r ∈ rows, r.length = 12) := by
  refine ⟨fixture_table_arity, ?_, ?_, ?_⟩
  · intro data rows h
    unfold event_table at h
    simp only [bind_ok_iff] at h
    obtain ⟨evs, -, hm⟩ := h
    cases evs with
    | jarr es =>
      exact exceptMapRows_forall (event_row data) _
        (event_row_length data) es rows hm
    | jnull => simp at hm
    | jbool b => simp at hm
    | jint n => simp at hm
    | jstr s => simp at hm
    | jobj d => simp at hm
  · intro data rows h
    unfold player_performance_table at h
    simp only [bind_ok_iff] at h
    obtain ⟨lineups, -, hm⟩ := h
    cases lineups with
    | jarr ps =>
      simp only [bind_ok_iff, except_pure, Except.ok.injEq] at hm
      obtain ⟨blocks, hblocks, hrows⟩ := hm
      subst hrows
      intro r hr
      obtain ⟨block, hbmem, hrmem⟩ := List.mem_flatten.mp hr
      exact exceptMapRowss_forall lineup_rows _
        (fun x y hy => lineup_rows_length x y hy) ps blocks hblocks
        block hbmem r hrmem
    | jnull => simp at hm
    | jbool b => simp at hm
    | jint n => simp at hm
    | jstr s => simp at hm
    | jobj d => simp at hm
  · intro cstore tstore data rows h
    unfold players_table at h
    simp only [bind_ok_iff] at h
    obtain ⟨w1, -, w2, -, w3, -, w4, -, w5, -, w6, -, pls, -, hm⟩ := h
    exact exceptMapRows_forall (player_row cstore tstore) _
      (player_row_length cstore tstore) pls rows hm

/-- The type-code lookup store used by the concrete roster scenario. -/
def demoTypesStore : List (Int × String) := [(10, "Shots"), (22, "Goalkeeper")]

/-- The country-code lookup store used by the concrete roster scenario. -/
def demoCountryStore : List (Int × String) := [(5, "USA")]

/-- A concrete record with a two-participant roster holding one player. -/
def demoRosterRec : JValue :=
  .jobj [("participants", .jarr [
    .jobj [("players", .jarr [
      .jobj [("id", .jint 501), ("player_id", .jint 9), ("team_id", .jint 101),
        ("position_id", .jint 22), ("detailed_position_id", .jnull),
        ("jersey_number", .jint 11),
        ("player", .jobj [("name", .jstr "P"), ("nationality_id", .jint 5),
          ("height", .jint 180), ("weight", .jnull),
          ("date_of_birth", .jstr "1999-01-01"),
          ("image_path", .jstr "img")])]])],
    .jobj [("players", .jarr [])]])]

/-- The twelve-column roster row produced from `demoRosterRec`. -/
def demoPlayerRowOut : List JValue :=
  [.jint 501, .jint 9, .jint 101, .jstr "P", .jstr "USA", .jstr "Goalkeeper",
    .jnull, .jint 11, .jint 180, .jnull, .jstr "1999-01-01", .jstr "img"]

/-- Counterexample for C9 as stated: `players_table` emits a row with twelve
columns, not eleven. -/
theorem claim_C9_counterexample :
    players_table demoCountryStore demoTypesStore demoRosterRec =
      .ok [demoPlayerRowOut] ∧ demoPlayerRowOut.length ≠ 11 :=
  ⟨rfl, by decide⟩

/-- A concrete record with one event and one period entry. -/
def demoEventRec : JValue :=
  .jobj [("events", .jarr [
    .jobj [("fixture_id", .jint 7), ("id", .jint 100), ("period_id", .jint 1),
      ("minute", .jint 10), ("extra_minute", .jnull), ("player_id", .jint 9),
      ("player_name", .jstr "P"), ("participant_id", .jint 101),
      ("related_player_id", .jnull), ("related_player_name", .jnull),
      ("type", .jstr "Goal"), ("subtype", .jnull), ("info", .jnull),
      ("injured", .jbool false)]]),
    ("periods", .jarr [.jobj [("id", .jint 1), ("sort_order", .jint 1)]])]

/-- A concrete record with one lineup entry holding one detail entry. -/
def demoLineupRec : JValue :=
  .jobj [("lineups", .jarr [
    .jobj [("details", .jarr [
      .jobj [("player_id", .jint 9), ("fixture_id", .jint 7),
        ("team_id", .jint 101), ("type", .jstr "Shots"),
        ("data", .jobj [("value", .jint 3)])]])]])]

/-- The table pair produced by `fixture_table` on `demoFixture`. -/
def demoFixtureTablesOut : FixtureTables where
  fixture := [.jint 7, .jstr "Home FC vs Away FC", .jint 3,
    .jstr "2024-03-01 00:00:00", .jnull, .jint 101, .jint 102]
  performance :=
    [[.jint 7, .jint 101, .jnull, .jint 2, .jnull, .jnull, .jstr "home"],
     [.jint 7, .jint 102, .jnull, .jnull, .jnull, .jnull, .jstr "away"]]

/-- The event row produced by `event_table` on `demoEventRec`. -/
def demoEventRowOut : List JValue :=
  [.jint 7, .jint 100, .jint 1, .jint 10, .jnull, .jint 9, .jstr "P",
    .jint 101, .jnull, .jnull, .jstr "Goal", .jnull, .jnull, .jbool false]

/-- The detail row produced by `player_performance_table` on
`demoLineupRec`. -/
def demoPPRowOut : List JValue :=
  [.jint 9, .jint 7, .jint 101, .jstr "Shots", .jint 3]

/-- Witness for the amended C9: each builder, run on a concrete record,
emits rows of the stated arity. -/
theorem claim_C9_witness :
    (demoFixtureTablesOut.fixture.length = 7 ∧
      ∀ r ∈ demoFixtureTablesOut.performance, r.length = 7) ∧
    (∀ r ∈ [demoEventRowOut], r.length = 14) ∧
    (∀ r ∈ [demoPPRowOut], r.length = 5) ∧
    (∀ r ∈ [demoPlayerRowOut], r.length = 12) :=
  ⟨claim_C9_amended.1 demoFixture demoFixtureTablesOut rfl,
   claim_C9_amended.2.1 demoEventRec [demoEventRowOut] rfl,
   claim_C9_amended.2.2.1 demoLineupRec [demoPPRowOut] rfl,
   claim_C9_amended.2.2.2 demoCountryStore demoTypesStore demoRosterRec
     [demoPlayerRowOut] rfl⟩

/-! ### Record enrichment (`sportmonk.fixture_statistics_lookups`,
`sportmonk.fixture_lineup_lookups`)

The process-wide `TYPES_LOOKUP` dictionary is passed explicitly as an
integer-keyed store. -/

theorem dictGet_map_set_self (k : String) (v : JValue) :
    ∀ d : List (String × JValue), d.any (fun kv => kv.1 = k) = true →
      dictGet (d.map (fun kv => if kv.1 = k then (k, v) else kv)) k = some v
  | [], h => by simp at h
  | a :: tl, h => by
    by_cases hak : a.1 = k
    · simp [dictGet, hak]
    · have htl : tl.any (fun kv => kv.1 = k) = true := by
        simpa [List.any_cons, hak] using h
      simp [dictGet, hak, dictGet_map_set_self k v tl htl]

theorem dictGet_append_single_self (k : String) (v : JValue) :
    ∀ d : List (String × JValue), d.any (fun kv => kv.1 = k) = false →
      dictGet (d ++ [(k, v)]) k = some v
  | [], _ => by simp [dictGet]
  | a :: tl, h => by
    have h' := h
    simp only [List.any_cons, Bool.or_eq_false_iff] at h'
    have hak : ¬ a.1 = k := by simpa using h'.1
    simp [dictGet, hak, dictGet_append_single_self k v tl h'.2]

theorem dictGet_map_set_ne (k k' : String) (v : JValue) (h : k' ≠ k) :
    ∀ d : List (String × JValue),
      dictGet (d.map (fun kv => if kv.1 = k then (k, v) else kv)) k' =
        dictGet d k'
  | [] => rfl
  | a :: tl => by
    by_cases hak : a.1 = k
    · have hkk : ¬ k = k' := fun hc => h hc.symm
      simp [dictGet, hak, hkk, Ne.symm (hak ▸ h : k' ≠ a.1),
        dictGet_map_set_ne k k' v h tl]
    · by_cases hak' : a.1 = k'
      · simp [dictGet, hak, hak', h]
      · simp [dictGet, hak, hak', dictGet_map_set_ne k k' v h tl]

theorem dictGet_append_single_ne (k k' : String) (v : JValue) (h : k' ≠ k) :
    ∀ d : List (String × JValue), dictGet (d ++ [(k, v)]) k' = dictGet d k'
  | [] => by simp [dictGet, Ne.symm h]
  | a :: tl => by
    by_cases hak' : a.1 = k'
    · simp [dictGet, hak']
    · simp [dictGet, hak', dictGet_append_single_ne k k' v h tl]

theorem dictGet_dictSet_self (d : List (String × JValue)) (k : String)
    (v : JValue) : dictGet (dictSet d k v) k = some v := by
  unfold dictSet
  by_cases hany : d.any (fun kv => kv.1 = k) = true
  · rw [if_pos hany]
    exact dictGet_map_set_self k v d hany
  · rw [if_neg hany]
    refine dictGet_append_single_self k v d ?_
    simp only [Bool.not_eq_true] at hany
    exact hany

theorem dictGet_dictSet_ne (d : List (String × JValue)) (k k' : String)
    (v : JValue) (h : k' ≠ k) : dictGet (dictSet d k v) k' = dictGet d k' := by
  unfold dictSet
  by_cases hany : d.any (fun kv => kv.1 = k) = true
  · rw [if_pos hany]
    exact dictGet_map_set_ne k k' v h d
  · rw [if_neg hany]
    exact dictGet_append_single_ne k k' v h d

theorem pyGet_pySet_ne (d : List (String × JValue)) (k k' : String)
    (x : JValue) (h : k' ≠ k) :
    pyGet (pySet (.jobj d) k x) k' = pyGet (.jobj d) k' := by
  simp [pySet, pyGet, dictGet_dictSet_ne d k k' x h]

/-- Loop body of `fixture_statistics_lookups` over `data['statistics']`:
`stat['type'] = TYPES_LOOKUP[stat['type_id']]`. -/
def enrich_stat (store : List (Int × String)) (s : JValue) :
    Except PyErr JValue :=
  match s with
  | .jobj d => do
    let tid ← pyGet (.jobj d) "type_id"
    let nm ← storeGet store tid
    pure (JValue.jobj (dictSet d "type" (.jstr nm)))
  | _ => .error (.typeError "item assignment")

/-- Loop body of `fixture_statistics_lookups` over `data['events']`:
resolve `type_id`, then `sub_type_id` when it is not `None` (else a null
`subtype`). -/
def enrich_event (store : List (Int × String)) (ev : JValue) :
    Except PyErr JValue :=
  match ev with
  | .jobj d => do
    let tid ← pyGet (.jobj d) "type_id"
    let nm ← storeGet store tid
    let d1 := dictSet d "type" (.jstr nm)
    let stid ← pyGet (.jobj d1) "sub_type_id"
    match stid with
    | .jnull => pure (JValue.jobj (dictSet d1 "subtype" .jnull))
    | v => do
      let nm2 ← storeGet store v
      pure (JValue.jobj (dictSet d1 "subtype" (.jstr nm2)))
  | _ => .error (.typeError "item assignment")

/-- Embedding of `sportmonk.fixture_statistics_lookups`: enrich every
statistic, then every event, mutating the record in place. -/
def fixture_statistics_lookups (store : List (Int × String)) (data : JValue) :
    Except PyErr JValue := do
  let stats ← pyGet data "statistics"
  match stats with
  | .jarr ss => do
    let ss' ← exceptMap (enrich_stat store) ss
    let data1 := pySet data "statistics" (.jarr ss')
    let evs ← pyGet data1 "events"
    match evs with
    | .jarr es => do
      let es' ← exceptMap (enrich_event store) es
      pure (pySet data1 "events" (.jarr es'))
    | _ => .error (.typeError "not iterable")
  | _ => .error (.typeError "not iterable")

/-- The value assigned by `fixture_lineup_lookups`:
`TYPES_LOOKUP[code] if code is not None else 'N/A'`. -/
def lineupName (store : List (Int × String)) (v : JValue) :
    Except PyErr String :=
  match v with
  | .jnull => .ok "N/A"
  | t => storeGet store t

/-- Loop body of `fixture_lineup_lookups`: add `lineup_type` then `position`
alongside the original `type_id`/`position_id` fields. -/
def enrich_lineup (store : List (Int × String)) (p : JValue) :
    Except PyErr JValue :=
  match p with
  | .jobj d => do
    let tid ← pyGet (.jobj d) "type_id"
    let lt ← lineupName store tid
    let d1 := dictSet d "lineup_type" (.jstr lt)
    let pid ← pyGet (.jobj d1) "position_id"
    let pos ← lineupName store pid
    pure (JValue.jobj (dictSet d1 "position" (.jstr pos)))
  | _ => .error (.typeError "item assignment")

/-- Embedding of `sportmonk.fixture_lineup_lookups`. -/
def fixture_lineup_lookups (store : List (Int × String)) (data : JValue) :
    Except PyErr JValue := do
  let l ← pyGet data "lineups"
  match l with
  | .jarr ps => do
    let ps' ← exceptMap (enrich_lineup store) ps
    pure (pySet data "lineups" (.jarr ps'))
  | _ => .error (.typeError "not iterable")

theorem enrich_lineup_eval (store : List (Int × String))
    (d : List (String × JValue)) (tid pid : JValue) (ltv posv : String)
    (ht : dictGet d "type_id" = some tid)
    (hp : dictGet d "position_id" = some pid)
    (hlt : lineupName store tid = .ok ltv)
    (hpos : lineupName store pid = .ok posv) :
    enrich_lineup store (.jobj d) = .ok (.jobj
      (dictSet (dictSet d "lineup_type" (.jstr ltv)) "position"
        (.jstr posv))) := by
  have hpg1 : pyGet (.jobj d) "type_id" = .ok tid := by simp [pyGet, ht]
  have hpg2 : pyGet (.jobj (dictSet d "lineup_type" (.jstr ltv)))
      "position_id" = .ok pid := by
    simp [pyGet,
      dictGet_dictSet_ne d "lineup_type" "position_id" (.jstr ltv) (by decide),
      hp]
  simp only [enrich_lineup, hpg1, ok_bind, hlt, hpg2, hpos, except_pure]

theorem lineupName_cases (store : List (Int × String)) (tid : JValue)
    (hres : tid = .jnull ∨ ∃ n nm, tid = .jint n ∧ storeFind store n = some nm) :
    ∃ ltv, lineupName store tid = .ok ltv ∧
      (tid = .jnull → ltv = "N/A") ∧
      (∀ n nm, tid = .jint n → storeFind store n = some nm → ltv = nm) := by
  rcases hres with rfl | ⟨n, nm, rfl, hf⟩
  · refine ⟨"N/A", rfl, fun _ => rfl, ?_⟩
    intro n nm h
    cases h
  · refine ⟨nm, by simp [lineupName, storeGet, hf], ?_, ?_⟩
    · intro h
      cases h
    · intro n' nm' h hf'
      cases h
      rw [hf] at hf'
      exact Option.some.inj hf'

theorem enrich_lineup_spec (store : List (Int × String))
    (d : List (String × JValue)) (tid pid : JValue)
    (ht : dictGet d "type_id" = some tid)
    (hp : dictGet d "position_id" = some pid)
    (hres1 : tid = .jnull ∨ ∃ n nm, tid = .jint n ∧ storeFind store n = some nm)
    (hres2 : pid = .jnull ∨ ∃ n nm, pid = .jint n ∧ storeFind store n = some nm) :
    ∃ d', enrich_lineup store (.jobj d) = .ok (.jobj d') ∧
      dictGet d' "type_id" = some tid ∧
      dictGet d' "position_id" = some pid ∧
      (tid = .jnull → dictGet d' "lineup_type" = some (.jstr "N/A")) ∧
      (∀ n nm, tid = .jint n → storeFind store n = some nm →
        dictGet d' "lineup_type" = some (.jstr nm)) ∧
      (pid = .jnull → dictGet d' "position" = some (.jstr "N/A")) ∧
      (∀ n nm, pid = .jint n → storeFind store n = some nm →
        dictGet d' "position" = some (.jstr nm)) := by
  obtain ⟨ltv, hlt, hltn, hlti⟩ := lineupName_cases store tid hres1
  obtain ⟨posv, hpv, hpn, hpi⟩ := lineupName_cases store pid hres2
  refine ⟨dictSet (dictSet d "lineup_type" (.jstr ltv)) "position"
    (.jstr posv), enrich_lineup_eval store d tid pid ltv posv ht hp hlt hpv,
    ?_, ?_, ?_, ?_, ?_, ?_⟩
  · rw [dictGet_dictSet_ne _ "position" "type_id" _ (by decide),
      dictGet_dictSet_ne _ "lineup_type" "type_id" _ (by decide)]
    exact ht
  · rw [dictGet_dictSet_ne _ "position" "position_id" _ (by decide),
      dictGet_dictSet_ne _ "lineup_type" "position_id" _ (by decide)]
    exact hp
  · intro h
    rw [dictGet_dictSet_ne _ "position" "lineup_type" _ (by decide),
      dictGet_dictSet_self, hltn h]
  · intro n nm h hf
    rw [dictGet_dictSet_ne _ "position" "lineup_type" _ (by decide),
      dictGet_dictSet_self, hlti n nm h hf]
  · intro h
    rw [dictGet_dictSet_self, hpn h]
  · intro n nm h hf
    rw [dictGet_dictSet_self, hpi n nm h hf]

/-- Claim C7: enriching the lineups of a record maps a null
`type_id`/`position_id` to the `"N/A"` sentinel without raising, resolves
non-null codes through the Lookup Store, and never deletes the original
`type_id`/`position_id` fields. -/
theorem claim_C7 (store : List (Int × String)) (data : JValue)
    (ps : List JValue)
    (hl : pyGet data "lineups" = .ok (.jarr ps))
    (hwf : ∀ p ∈ ps, ∃ d tid pid, p = .jobj d ∧
      dictGet d "type_id" = some tid ∧ dictGet d "position_id" = some pid ∧
      (tid = .jnull ∨ ∃ n nm, tid = .jint n ∧ storeFind store n = some nm) ∧
      (pid = .jnull ∨ ∃ n nm, pid = .jint n ∧ storeFind store n = some nm)) :
    ∃ ps', fixture_lineup_lookups store data =
        .ok (pySet data "lineups" (.jarr ps')) ∧
      ps'.length = ps.length ∧
      ∀ i (hi : i < ps.length) (hi' : i < ps'.length)
        (d : List (String × JValue)) (tid pid : JValue),
        ps[i] = .jobj d → dictGet d "type_id" = some tid →
        dictGet d "position_id" = some pid →
        ∃ d', ps'[i] = .jobj d' ∧
          dictGet d' "type_id" = some tid ∧
          dictGet d' "position_id" = some pid ∧
          (tid = .jnull → dictGet d' "lineup_type" = some (.jstr "N/A")) ∧
          (∀ n nm, tid = .jint n → storeFind store n = some nm →
            dictGet d' "lineup_type" = some (.jstr nm)) ∧
          (pid = .jnull → dictGet d' "position" = some (.jstr "N/A")) ∧
          (∀ n nm, pid = .jint n → storeFind store n = some nm →
            dictGet d' "position" = some (.jstr nm)) := by
  have hall : ∀ p ∈ ps, ∃ b, enrich_lineup store p = .ok b := by
    intro p hpmem
    obtain ⟨d, tid, pid, rfl, ht, hp, hres1, hres2⟩ := hwf p hpmem
    obtain ⟨d', hd', -⟩ := enrich_lineup_spec store d tid pid ht hp hres1 hres2
    exact ⟨.jobj d', hd'⟩
  obtain ⟨ps', hmap, hlen, hpt⟩ :=
    exceptMap_ok_of_forall (enrich_lineup store) ps hall
  refine ⟨ps', ?_, hlen, ?_⟩
  · simp only [fixture_lineup_lookups, hl, ok_bind, hmap, except_pure]
  · intro i hi hi' d tid pid hobj ht hp
    have hmem : ps[i] ∈ ps := List.getElem_mem hi
    obtain ⟨d0, tid0, pid0, hobj0, ht0, hp0, hres1, hres2⟩ := hwf ps[i] hmem
    have hd : d0 = d := by
      rw [hobj] at hobj0
      exact (JValue.jobj.inj hobj0).symm
    subst hd
    have htid : tid0 = tid := by
      rw [ht] at ht0
      exact (Option.some.inj ht0).symm
    have hpid : pid0 = pid := by
      rw [hp] at hp0
      exact (Option.some.inj hp0).symm
    subst htid
    subst hpid
    obtain ⟨d', hd', hrest⟩ :=
      enrich_lineup_spec store d0 tid0 pid0 ht0 hp0 hres1 hres2
    have hpti := hpt i hi hi'
    rw [hobj, hd'] at hpti
    exact ⟨d', (Except.ok.inj hpti).symm, hrest⟩

/-- The type store used in the concrete lineup-enrichment scenario. -/
def demoLineupStore : List (Int × String) := [(11, "Lineup"), (24, "Goalkeeper")]

/-- A lineup entry with null type and position codes. -/
def demoLineupEntryNull : JValue :=
  .jobj [("type_id", .jnull), ("position_id", .jnull)]

/-- A lineup entry with resolvable type and position codes. -/
def demoLineupEntryCoded : JValue :=
  .jobj [("player_id", .jint 9), ("type_id", .jint 11),
    ("position_id", .jint 24)]

/-- A record holding the two concrete lineup entries. -/
def demoLineupData : JValue :=
  .jobj [("lineups", .jarr [demoLineupEntryNull, demoLineupEntryCoded])]

/-- Witness for C7: the null-coded entry gets `"N/A"` for both added fields
and the coded entry gets the store names, with the original id fields kept. -/
theorem claim_C7_witness :
    ∃ d0 d1,
      fixture_lineup_lookups demoLineupStore demoLineupData =
        .ok (pySet demoLineupData "lineups" (.jarr [.jobj d0, .jobj d1])) ∧
      dictGet d0 "lineup_type" = some (.jstr "N/A") ∧
      dictGet d0 "position" = some (.jstr "N/A") ∧
      dictGet d0 "type_id" = some .jnull ∧
      dictGet d0 "position_id" = some .jnull ∧
      dictGet d1 "lineup_type" = some (.jstr "Lineup") ∧
      dictGet d1 "position" = some (.jstr "Goalkeeper") ∧
      dictGet d1 "type_id" = some (.jint 11) ∧
      dictGet d1 "position_id" = some (.jint 24) := by
  obtain ⟨ps', heq, hlen, hpt⟩ := claim_C7 demoLineupStore demoLineupData
    [demoLineupEntryNull, demoLineupEntryCoded] rfl
    (by
      intro p hpmem
      fin_cases hpmem
      · exact ⟨[("type_id", .jnull), ("position_id", .jnull)], .jnull, .jnull,
          rfl, rfl, rfl, Or.inl rfl, Or.inl rfl⟩
      · exact ⟨[("player_id", .jint 9), ("type_id", .jint 11),
          ("position_id", .jint 24)], .jint 11, .jint 24,
          rfl, rfl, rfl, Or.inr ⟨11, "Lineup", rfl, rfl⟩,
          Or.inr ⟨24, "Goalkeeper", rfl, rfl⟩⟩)
  match ps', hlen with
  | [a, b], _ =>
    obtain ⟨d0, ha, h0t, h0p, h0lt, -, h0pos, -⟩ := hpt 0 (by decide)
      (by simp) [("type_id", .jnull), ("position_id", .jnull)] .jnull .jnull
      rfl rfl rfl
    obtain ⟨d1, hb, h1t, h1p, -, h1lt, -, h1pos⟩ := hpt 1 (by decide)
      (by simp) [("player_id", .jint 9), ("type_id", .jint 11),
        ("position_id", .jint 24)] (.jint 11) (.jint 24) rfl rfl rfl
    refine ⟨d0, d1, ?_, h0lt rfl, h0pos rfl, h0t, h0p,
      h1lt 11 "Lineup" rfl rfl, h1pos 24 "Goalkeeper" rfl rfl, h1t, h1p⟩
    have ha' : a = .jobj d0 := ha
    have hb' : b = .jobj d1 := hb
    rw [ha', hb'] at heq
    exact heq

theorem enrich_stat_eval (store : List (Int × String))
    (d : List (String × JValue)) (n : Int) (nm : String)
    (ht : dictGet d "type_id" = some (.jint n))
    (hf : storeFind store n = some nm) :
    enrich_stat store (.jobj d) = .ok (.jobj (dictSet d "type" (.jstr nm))) := by
  have hpg : pyGet (.jobj d) "type_id" = .ok (.jint n) := by simp [pyGet, ht]
  have hsg : storeGet store (.jint n) = .ok nm := by simp [storeGet, hf]
  simp only [enrich_stat, hpg, ok_bind, hsg, except_pure]

theorem enrich_stat_err (store : List (Int × String))
    (d : List (String × JValue)) (n : Int)
    (ht : dictGet d "type_id" = some (.jint n))
    (hf : storeFind store n = none) :
    enrich_stat store (.jobj d) = .error (.keyError (.jint n)) := by
  have hpg : pyGet (.jobj d) "type_id" = .ok (.jint n) := by simp [pyGet, ht]
  have hsg : storeGet store (.jint n) = .error (.keyError (.jint n)) := by
    simp [storeGet, hf]
  simp only [enrich_stat, hpg, ok_bind, hsg, error_bind]

theorem enrich_event_ok_null (store : List (Int × String))
    (d : List (String × JValue)) (n : Int) (nm : String)
    (ht : dictGet d "type_id" = some (.jint n))
    (hf : storeFind store n = some nm)
    (hs : dictGet d "sub_type_id" = some .jnull) :
    enrich_event store (.jobj d) = .ok
      (.jobj (dictSet (dictSet d "type" (.jstr nm)) "subtype" .jnull)) := by
  have hpg : pyGet (.jobj d) "type_id" = .ok (.jint n) := by simp [pyGet, ht]
  have hsg : storeGet store (.jint n) = .ok nm := by simp [storeGet, hf]
  have hpg2 : pyGet (.jobj (dictSet d "type" (.jstr nm))) "sub_type_id" =
      .ok .jnull := by
    simp [pyGet,
      dictGet_dictSet_ne d "type" "sub_type_id" (.jstr nm) (by decide), hs]
  simp only [enrich_event, hpg, ok_bind, hsg, hpg2, except_pure]

theorem enrich_event_ok_sub (store : List (Int × String))
    (d : List (String × JValue)) (n m : Int) (nm nm2 : String)
    (ht : dictGet d "type_id" = some (.jint n))
    (hf : storeFind store n = some nm)
    (hs : dictGet d "sub_type_id" = some (.jint m))
    (hf2 : storeFind store m = some nm2) :
    enrich_event store (.jobj d) = .ok
      (.jobj (dictSet (dictSet d "type" (.jstr nm)) "subtype"
        (.jstr nm2))) := by
  have hpg : pyGet (.jobj d) "type_id" = .ok (.jint n) := by simp [pyGet, ht]
  have hsg : storeGet store (.jint n) = .ok nm := by simp [storeGet, hf]
  have hpg2 : pyGet (.jobj (dictSet d "type" (.jstr nm))) "sub_type_id" =
      .ok (.jint m) := by
    simp [pyGet,
      dictGet_dictSet_ne d "type" "sub_type_id" (.jstr nm) (by decide), hs]
  have hsg2 : storeGet store (.jint m) = .ok nm2 := by simp [storeGet, hf2]
  simp only [enrich_event, hpg, ok_bind, hsg, hpg2, hsg2, except_pure]

theorem enrich_event_err_type (store : List (Int × String))
    (d : List (String × JValue)) (n : Int)
    (ht : dictGet d "type_id" = some (.jint n))
    (hf : storeFind store n = none) :
    enrich_event store (.jobj d) = .error (.keyError (.jint n)) := by
  have hpg : pyGet (.jobj d) "type_id" = .ok (.jint n) := by simp [pyGet, ht]
  have hsg : storeGet store (.jint n) = .error (.keyError (.jint n)) := by
    simp [storeGet, hf]
  simp only [enrich_event, hpg, ok_bind, hsg, error_bind]

theorem enrich_event_err_sub (store : List (Int × String))
    (d : List (String × JValue)) (n m : Int) (nm : String)
    (ht : dictGet d "type_id" = some (.jint n))
    (hf : storeFind store n = some nm)
    (hs : dictGet d "sub_type_id" = some (.jint m))
    (hf2 : storeFind store m = none) :
    enrich_event store (.jobj d) = .error (.keyError (.jint m)) := by
  have hpg : pyGet (.jobj d) "type_id" = .ok (.jint n) := by simp [pyGet, ht]
  have hsg : storeGet store (.jint n) = .ok nm := by simp [storeGet, hf]
  have hpg2 : pyGet (.jobj (dictSet d "type" (.jstr nm))) "sub_type_id" =
      .ok (.jint m) := by
    simp [pyGet,
      dictGet_dictSet_ne d "type" "sub_type_id" (.jstr nm) (by decide), hs]
  have hsg2 : storeGet store (.jint m) = .error (.keyError (.jint m)) := by
    simp [storeGet, hf2]
  simp only [enrich_event, hpg, ok_bind, hsg, hpg2, hsg2, error_bind]

/-- Claim C6: enriching a record's statistics with a Lookup Store that
contains each statistic's `type_id` adds a `type` field equal to the store's
name; when the store has no entry for some non-null `type_id`/`sub_type_id`
present in the record, enrichment fails with a missing-lookup-key `KeyError`
instead of silently skipping the field. -/
theorem claim_C6 (store : List (Int × String)) (data : JValue)
    (ss es : List JValue)
    (hs : pyGet data "statistics" = .ok (.jarr ss))
    (he : pyGet data "events" = .ok (.jarr es))
    (hwfS : ∀ s ∈ ss, ∃ d n, s = .jobj d ∧ dictGet d "type_id" = some (.jint n))
    (hwfE : ∀ ev ∈ es, ∃ d n sv, ev = .jobj d ∧
      dictGet d "type_id" = some (.jint n) ∧
      dictGet d "sub_type_id" = some sv ∧
      (sv = .jnull ∨ ∃ m : Int, sv = .jint m)) :
    ((∀ s ∈ ss, ∀ (d : List (String × JValue)) (n : Int), s = .jobj d →
        dictGet d "type_id" = some (.jint n) →
        ∃ nm, storeFind store n = some nm) →
     (∀ ev ∈ es, ∀ (d : List (String × JValue)) (n : Int), ev = .jobj d →
        (dictGet d "type_id" = some (.jint n) ∨
          dictGet d "sub_type_id" = some (.jint n)) →
        ∃ nm, storeFind store n = some nm) →
      ∃ ss' es', fixture_statistics_lookups store data =
          .ok (pySet (pySet data "statistics" (.jarr ss')) "events"
            (.jarr es')) ∧
        ss'.length = ss.length ∧ es'.length = es.length ∧
        (∀ i (hi : i < ss.length) (hi' : i < ss'.length),
          enrich_stat store ss[i] = .ok ss'[i]) ∧
        (∀ i (hi : i < es.length) (hi' : i < es'.length),
          enrich_event store es[i] = .ok es'[i]) ∧
        (∀ i (hi : i < ss.length) (hi' : i < ss'.length)
          (d : List (String × JValue)) (n : Int) (nm : String),
          ss[i] = .jobj d → dictGet d "type_id" = some (.jint n) →
          storeFind store n = some nm →
          pyGet ss'[i] "type" = .ok (.jstr nm))) ∧
    (((∃ s ∈ ss, ∃ d n, s = .jobj d ∧ dictGet d "type_id" = some (.jint n) ∧
        storeFind store n = none) ∨
      (∃ ev ∈ es, ∃ d n, ev = .jobj d ∧
        ((dictGet d "type_id" = some (.jint n) ∧ storeFind store n = none) ∨
         (dictGet d "sub_type_id" = some (.jint n) ∧
           storeFind store n = none)))) →
      ∃ n : Int, storeFind store n = none ∧
        fixture_statistics_lookups store data =
          .error (.keyError (.jint n))) := by
  cases data with
  | jnull => simp [pyGet] at hs
  | jbool b => simp [pyGet] at hs
  | jint n => simp [pyGet] at hs
  | jstr s => simp [pyGet] at hs
  | jarr l => simp [pyGet] at hs
  | jobj d0 =>
    constructor
    · intro hallS hallE
      have hokS : ∀ s ∈ ss, ∃ b, enrich_stat store s = .ok b := by
        intro s hsm
        obtain ⟨d, n, rfl, ht⟩ := hwfS s hsm
        obtain ⟨nm, hf⟩ := hallS (.jobj d) hsm d n rfl ht
        exact ⟨_, enrich_stat_eval store d n nm ht hf⟩
      obtain ⟨ss', hmapS, hlenS, hptS⟩ :=
        exceptMap_ok_of_forall (enrich_stat store) ss hokS
      have hokE : ∀ ev ∈ es, ∃ b, enrich_event store ev = .ok b := by
        intro ev hevm
        obtain ⟨d, n, sv, rfl, ht, hsub, hshape⟩ := hwfE ev hevm
        obtain ⟨nm, hf⟩ := hallE (.jobj d) hevm d n rfl (Or.inl ht)
        rcases hshape with rfl | ⟨m, rfl⟩
        · exact ⟨_, enrich_event_ok_null store d n nm ht hf hsub⟩
        · obtain ⟨nm2, hf2⟩ := hallE (.jobj d) hevm d m rfl (Or.inr hsub)
          exact ⟨_, enrich_event_ok_sub store d n m nm nm2 ht hf hsub hf2⟩
      obtain ⟨es', hmapE, hlenE, hptE⟩ :=
        exceptMap_ok_of_forall (enrich_event store) es hokE
      have hev1 : pyGet (pySet (.jobj d0) "statistics" (.jarr ss'))
          "events" = .ok (.jarr es) := by
        rw [pyGet_pySet_ne d0 "statistics" "events" (.jarr ss') (by decide)]
        exact he
      refine ⟨ss', es', ?_, hlenS, hlenE, hptS, hptE, ?_⟩
      · simp only [fixture_statistics_lookups, hs, ok_bind, hmapS, hev1,
          hmapE, except_pure]
      · intro i hi hi' d n nm hobj ht hf
        have hpti := hptS i hi hi'
        rw [hobj, enrich_stat_eval store d n nm ht hf] at hpti
        have hval : JValue.jobj (dictSet d "type" (.jstr nm)) = ss'[i] :=
          Except.ok.inj hpti
        rw [← hval]
        simp [pyGet, dictGet_dictSet_self]
    · intro hfail
      have hclsS : ∀ s ∈ ss, (∃ b, enrich_stat store s = .ok b) ∨
          ∃ e, enrich_stat store s = .error e ∧
            ∃ n : Int, e = .keyError (.jint n) ∧ storeFind store n = none := by
        intro s hsm
        obtain ⟨d, n, rfl, ht⟩ := hwfS s hsm
        cases hsf : storeFind store n with
        | some nm => exact Or.inl ⟨_, enrich_stat_eval store d n nm ht hsf⟩
        | none =>
          exact Or.inr ⟨_, enrich_stat_err store d n ht hsf, n, rfl, hsf⟩
      by_cases hsucc : ∀ s ∈ ss, ∃ b, enrich_stat store s = .ok b
      · obtain ⟨ss', hmapS, hlenS, hptS⟩ :=
          exceptMap_ok_of_forall (enrich_stat store) ss hsucc
        have hclsE : ∀ ev ∈ es, (∃ b, enrich_event store ev = .ok b) ∨
            ∃ e, enrich_event store ev = .error e ∧
              ∃ n : Int, e = .keyError (.jint n) ∧
                storeFind store n = none := by
          intro ev hevm
          obtain ⟨d, n, sv, rfl, ht, hsub, hshape⟩ := hwfE ev hevm
          cases hf : storeFind store n with
          | none =>
            exact Or.inr ⟨_, enrich_event_err_type store d n ht hf, n, rfl, hf⟩
          | some nm =>
            rcases hshape with rfl | ⟨m, rfl⟩
            · exact Or.inl ⟨_, enrich_event_ok_null store d n nm ht hf hsub⟩
            · cases hf2 : storeFind store m with
              | some nm2 =>
                exact Or.inl
                  ⟨_, enrich_event_ok_sub store d n m nm nm2 ht hf hsub hf2⟩
              | none =>
                exact Or.inr ⟨_,
                  enrich_event_err_sub store d n m nm ht hf hsub hf2,
                  m, rfl, hf2⟩
        have hnotokE : ∃ a ∈ es, ∀ b, enrich_event store a ≠ .ok b := by
          rcases hfail with ⟨s, hsm, d, n, hobj, ht, hnone⟩ |
            ⟨ev, hevm, d, n, hobj, hcase⟩
          · exfalso
            obtain ⟨b, hb⟩ := hsucc s hsm
            rw [hobj, enrich_stat_err store d n ht hnone] at hb
            exact Except.noConfusion hb
          · refine ⟨ev, hevm, ?_⟩
            obtain ⟨de, n0, sv0, hobj0, ht0, hsub0, hshape0⟩ := hwfE ev hevm
            have hdd : de = d := by
              rw [hobj] at hobj0
              exact (JValue.jobj.inj hobj0).symm
            subst hdd
            subst hobj
            rcases hcase with ⟨ht', hnone⟩ | ⟨hsub', hnone⟩
            · have hnn : n = n0 :=
                JValue.jint.inj (Option.some.inj (ht'.symm.trans ht0))
              subst hnn
              intro b hb
              rw [enrich_event_err_type store de n ht' hnone] at hb
              exact Except.noConfusion hb
            · have hsv : JValue.jint n = sv0 :=
                Option.some.inj (hsub'.symm.trans hsub0)
              cases hf : storeFind store n0 with
              | none =>
                intro b hb
                rw [enrich_event_err_type store de n0 ht0 hf] at hb
                exact Except.noConfusion hb
              | some nm =>
                intro b hb
                rw [enrich_event_err_sub store de n0 n nm ht0 hf hsub'
                  hnone] at hb
                exact Except.noConfusion hb
        obtain ⟨e, hmapE, m, hEm, hm⟩ := exceptMap_error_of_exists
          (enrich_event store)
          (fun e => ∃ n : Int, e = .keyError (.jint n) ∧
            storeFind store n = none) es hclsE hnotokE
        subst hEm
        refine ⟨m, hm, ?_⟩
        have hev1 : pyGet (pySet (.jobj d0) "statistics" (.jarr ss'))
            "events" = .ok (.jarr es) := by
          rw [pyGet_pySet_ne d0 "statistics" "events" (.jarr ss') (by decide)]
          exact he
        simp only [fixture_statistics_lookups, hs, ok_bind, hmapS, hev1,
          hmapE, error_bind]
      · have hnotokS : ∃ a ∈ ss, ∀ b, enrich_stat store a ≠ .ok b := by
          push_neg at hsucc
          exact hsucc
        obtain ⟨e, hmapErr, n', hEn, hn'⟩ := exceptMap_error_of_exists
          (enrich_stat store)
          (fun e => ∃ n : Int, e = .keyError (.jint n) ∧
            storeFind store n = none) ss hclsS hnotokS
        subst hEn
        refine ⟨n', hn', ?_⟩
        simp only [fixture_statistics_lookups, hs, ok_bind, hmapErr,
          error_bind]

/-- A record with one statistic `{type_id: 10}` and no events. -/
def demoStatRec : JValue :=
  .jobj [("statistics", .jarr [.jobj [("type_id", .jint 10)]]),
    ("events", .jarr [])]

/-- Witness for C6: with the store `{10: "Shots"}` the enriched statistic
carries `type == "Shots"`; with an empty store the enrichment fails with a
missing-lookup-key error. -/
theorem claim_C6_witness :
    (∃ ss' es', fixture_statistics_lookups [(10, "Shots")] demoStatRec =
        .ok (pySet (pySet demoStatRec "statistics" (.jarr ss')) "events"
          (.jarr es')) ∧
      ss'.length = 1 ∧
      ∀ _ : 0 < ss'.length, pyGet ss'[0] "type" = .ok (.jstr "Shots")) ∧
    (∃ n : Int, storeFind ([] : List (Int × String)) n = none ∧
      fixture_statistics_lookups [] demoStatRec =
        .error (.keyError (.jint n))) := by
  constructor
  · obtain ⟨ss', es', heq, hlen, -, -, -, hproj⟩ :=
      (claim_C6 [(10, "Shots")] demoStatRec [.jobj [("type_id", .jint 10)]]
        [] rfl rfl
        (by
          intro s hsm
          fin_cases hsm
          exact ⟨[("type_id", .jint 10)], 10, rfl, rfl⟩)
        (by
          intro ev hevm
          exact absurd hevm (List.not_mem_nil ev))).1
      (by
        intro s hsm
        fin_cases hsm
        intro d n hobj ht
        have hd := JValue.jobj.inj hobj
        subst hd
        simp only [dictGet] at ht
        simp only [if_pos] at ht
        have hn := JValue.jint.inj (Option.some.inj ht)
        subst hn
        exact ⟨"Shots", rfl⟩)
      (by
        intro ev hevm
        exact absurd hevm (List.not_mem_nil ev))
    refine ⟨ss', es', heq, hlen, ?_⟩
    intro hi'
    exact hproj 0 (by decide) hi' [("type_id", .jint 10)] 10 "Shots"
      rfl rfl rfl
  · exact (claim_C6 [] demoStatRec [.jobj [("type_id", .jint 10)]] [] rfl rfl
      (by
        intro s hsm
        fin_cases hsm
        exact ⟨[("type_id", .jint 10)], 10, rfl, rfl⟩)
      (by
        intro ev hevm
        exact absurd hevm (List.not_mem_nil ev))).2
      (Or.inl ⟨.jobj [("type_id", .jint 10)], List.mem_cons_self _ _,
        [("type_id", .jint 10)], 10, rfl, rfl, rfl⟩)

end MLS
